import Mathlib

/-!
# Verification of the invitation orchestration engine

A shallow embedding, in Lean 4, of the core functions of `defunc.py`:
candidate normalization (`parse_user_ref`), the session scheduler
(`_pick_best_session`, here `pick_best_session`), the rate governor
(`session_next_time_due_to_limits`, `session_consume_invite_token`), the
night-mode gate (`_is_time_in_window`, `_seconds_until_window_end`), and
the per-candidate executor loops of `inviting` and
`inviting_rotate_sessions`.

Modelling conventions:
* Timestamps and delays (Python floats, seconds since the epoch) are
  modelled as `Int` seconds.  `_now()` and `random.uniform` results are
  supplied explicitly by an environment/oracle, one record per processed
  candidate, making the nondeterminism of clock and RNG explicit.
* The SQLite ledger (`invites` table, primary key (target, user_key)) is
  an association list with insert-or-replace semantics; the
  `excluded_users` table together with its in-memory mirror
  (`excluded_cache`) is a list of keys (hit counters and reason texts do
  not affect any verified property and are reduced to a reason string).
* Network dispatch (`client(InviteToChannelRequest(...))`) is abstracted
  by the classified outcome of the call (`DispatchOutcome`), one
  constructor per `except` arm of the source, as per the closed taxonomy.
* Python strings are modelled as Lean `String`/`List Char`; the character
  predicates (`str.isdigit`, the regexes `(\d+):(\d+)` and
  `[A-Za-z0-9_]{4,}`) coincide with the source on ASCII input.
-/

namespace TgInvite

/- ------------------------------------------------------------------ -/
/- Candidate references and `parse_user_ref`                           -/
/- ------------------------------------------------------------------ -/

/-- Raw input to `parse_user_ref`: a Python `int` or a string. -/
inductive UserRef where
  | int (n : Int)
  | str (s : String)
deriving DecidableEq, Repr

/-- Dispatch entity produced by `parse_user_ref`: a bare id, an
`'@' ++ username` string, an `InputPeerUser(id, access_hash)`, the raw
string, or `None`. -/
inductive Entity where
  | ent_int (n : Int)
  | ent_at (s : String)
  | ent_peer (id ah : Nat)
  | ent_raw (s : String)
  | ent_none
deriving DecidableEq, Repr

/-- Result tuple of `parse_user_ref`: `(user_key, user_id, username, entity)`. -/
structure ParsedRef where
  key : String
  userId : Option Int
  username : Option String
  entity : Entity
deriving DecidableEq, Repr

/-- Python `str.strip()` on a character list. -/
def pyStripL (l : List Char) : List Char :=
  ((l.dropWhile Char.isWhitespace).reverse.dropWhile Char.isWhitespace).reverse

/-- Python `str.isdigit()` (ASCII): nonempty and all digits. -/
def pyIsDigitL (l : List Char) : Bool :=
  !l.isEmpty && l.all Char.isDigit

/-- Numeric value of a digit string, as Python `int()` computes it. -/
def natOfDigitsL (l : List Char) : Nat :=
  l.foldl (fun acc c => acc * 10 + (c.toNat - '0'.toNat)) 0

/-- Python `str.lower()` (ASCII). -/
def lowerL (l : List Char) : List Char := l.map Char.toLower

/-- A word character of the regex `[A-Za-z0-9_]`. -/
def isWordChar (c : Char) : Bool := c.isAlphanum || c == '_'

/-- The regex `[A-Za-z0-9_]{4,}` fully matched ("plain username without @"). -/
def isHandleL (l : List Char) : Bool :=
  decide (4 ≤ l.length) && l.all isWordChar

/-- Splits a leading run of digits off a character list (the `(\d+)` part
of the regex `(\d+):(\d+)`). -/
def splitDigits : List Char → List Char × List Char
  | [] => ([], [])
  | c :: cs =>
    if c.isDigit then
      let p := splitDigits cs
      (c :: p.1, p.2)
    else ([], c :: cs)

/-- Full match of the regex `(\d+):(\d+)`, returning the two numbers. -/
def digitsColonDigitsL (l : List Char) : Option (Nat × Nat) :=
  match splitDigits l with
  | (ds, c :: rest) =>
    if c = ':' ∧ ds ≠ [] ∧ rest ≠ [] ∧ rest.all Char.isDigit then
      some (natOfDigitsL ds, natOfDigitsL rest)
    else none
  | (_, []) => none

/-- Model of `parse_user_ref(raw)` from `defunc.py`: normalizes a candidate
reference to `(user_key, user_id, username, entity)`. -/
def parse_user_ref : UserRef → ParsedRef
  | .int n => ⟨"id:" ++ toString n, some n, none, .ent_int n⟩
  | .str raw =>
    let l0 := raw.toList
    if pyIsDigitL (pyStripL l0) then
      let uid : Nat := natOfDigitsL (pyStripL l0)
      ⟨"id:" ++ toString uid, some (uid : Int), none, .ent_int (uid : Int)⟩
    else
      match pyStripL l0 with
      | [] => ⟨"empty", none, none, .ent_none⟩
      | '@' :: rest =>
        ⟨"u:" ++ String.mk (lowerL rest), none, some (String.mk rest),
          .ent_at (String.mk ('@' :: rest))⟩
      | c :: cs =>
        let sl := c :: cs
        match digitsColonDigitsL sl with
        | some (uid, ah) =>
          ⟨"id:" ++ toString uid, some (uid : Int), none, .ent_peer uid ah⟩
        | none =>
          if isHandleL sl then
            ⟨"u:" ++ String.mk (lowerL sl), none, some (String.mk sl),
              .ent_at (String.mk ('@' :: sl))⟩
          else
            ⟨"raw:" ++ String.mk sl, none, none, .ent_raw (String.mk sl)⟩

/-- The `user_key` of a raw candidate (first component of `parse_user_ref`). -/
def userKeyOf (r : UserRef) : String := (parse_user_ref r).key

/- ------------------------------------------------------------------ -/
/- Session state, scheduler and rate governor                          -/
/- ------------------------------------------------------------------ -/

/-- The `SessionState` dataclass of `defunc.py`: persisted per-actor
operational state.  Timestamps are `Int` seconds (floats in the source). -/
structure SessionState where
  session_file : String
  blocked_until : Int := 0
  frozen_until : Int := 0
  banned : Bool := false
  last_invite_at : Int := 0
  next_invite_at : Int := 0
  hour_window_start : Int := 0
  hour_count : Nat := 0
  day_window_start : Int := 0
  day_count : Nat := 0
  ok : Nat := 0
  fail : Nat := 0
  attempts : Nat := 0
deriving DecidableEq, Repr

/-- Readiness `ready_at = max(st.blocked_until, st.frozen_until, st.next_invite_at)`,
the spec's `readiness(state)`. -/
def readiness (st : SessionState) : Int :=
  max (max st.blocked_until st.frozen_until) st.next_invite_at

/-- Sort key used by `_pick_best_session`:
`(ready_at, st.last_invite_at, st.attempts)`. -/
def sessKey (st : SessionState) : Int × Int × Int :=
  (readiness st, st.last_invite_at, st.attempts)

/-- Strict lexicographic order on the scheduler sort key. -/
def keyLt (a b : Int × Int × Int) : Prop :=
  a.1 < b.1 ∨ (a.1 = b.1 ∧ (a.2.1 < b.2.1 ∨ (a.2.1 = b.2.1 ∧ a.2.2 < b.2.2)))

instance (a b : Int × Int × Int) : Decidable (keyLt a b) := by
  unfold keyLt; infer_instance

/-- Lexicographic `≤` on the scheduler sort key. -/
def keyLe (a b : Int × Int × Int) : Prop := ¬keyLt b a

instance (a b : Int × Int × Int) : Decidable (keyLe a b) := by
  unfold keyLe; infer_instance

/-- Model of `_pick_best_session(states)` from `defunc.py`: drops `banned` actors,
stably sorts the rest by `(ready_at, last_invite_at, attempts)` and takes
the head.  Rendered functionally as the first minimum of that key (a
stable sort puts the first minimum at the head); `none` when no actor
remains. -/
def pick_best_session : List SessionState → Option SessionState
  | [] => none
  | st :: rest =>
    if st.banned then pick_best_session rest
    else
      match pick_best_session rest with
      | none => some st
      | some b => if keyLt (sessKey b) (sessKey st) then some b else some st

/-- Model of `session_next_time_due_to_limits(st, per_hour_limit, per_day_limit)`
from `defunc.py`: 0 when no enabled window is exhausted, else the
timestamp when the session can invite again.  (The `getattr` defaults
never fire: the fields always exist on `SessionState`.) -/
def session_next_time_due_to_limits (st : SessionState)
    (per_hour_limit per_day_limit : Nat) : Int :=
  let next_due : Int := 0
  let next_due :=
    if per_hour_limit ≠ 0 ∧ per_hour_limit ≤ st.hour_count then
      max next_due (st.hour_window_start + 3600)
    else next_due
  let next_due :=
    if per_day_limit ≠ 0 ∧ per_day_limit ≤ st.day_count then
      max next_due (st.day_window_start + 86400)
    else next_due
  next_due

/-- Model of `session_consume_invite_token(st, per_hour_limit, per_day_limit)` from
`defunc.py`, with the `_now()` reading passed explicitly: resets any
expired rolling window, then increments the counters of enabled limits. -/
def session_consume_invite_token (now : Int) (st : SessionState)
    (per_hour_limit per_day_limit : Nat) : SessionState :=
  let st :=
    if st.hour_window_start ≤ 0 ∨ 3600 ≤ now - st.hour_window_start then
      { st with hour_window_start := now, hour_count := 0 }
    else st
  let st :=
    if st.day_window_start ≤ 0 ∨ 86400 ≤ now - st.day_window_start then
      { st with day_window_start := now, day_count := 0 }
    else st
  let st :=
    if per_hour_limit ≠ 0 then { st with hour_count := st.hour_count + 1 }
    else st
  if per_day_limit ≠ 0 then { st with day_count := st.day_count + 1 }
  else st

/-- The per-candidate soft-limit gate of `inviting_rotate_sessions`
(lines "apply per-session soft limits"): when the session is over quota
and the reset lies in the future, push `next_invite_at` to the reset. -/
def applyQuotaGate (now : Int) (st : SessionState)
    (per_hour_limit per_day_limit : Nat) : SessionState :=
  let due := session_next_time_due_to_limits st per_hour_limit per_day_limit
  if due ≠ 0 ∧ now < due then
    { st with next_invite_at := max st.next_invite_at due }
  else st

/- ------------------------------------------------------------------ -/
/- Quota trace model (for the hour-window bound)                       -/
/- ------------------------------------------------------------------ -/

/-- One successful dispatch attributed to a session, as the
`inviting_rotate_sessions` loop performs it: the soft-limit gate runs at
clock `tg`; the dispatch succeeds at clock `t`, consumes a token and
re-arms `next_invite_at = last_invite_at + max(1, delay)`. -/
def successStep (tg t delay : Int) (st : SessionState)
    (per_hour_limit per_day_limit : Nat) : SessionState :=
  let st := applyQuotaGate tg st per_hour_limit per_day_limit
  let st := session_consume_invite_token t st per_hour_limit per_day_limit
  { st with last_invite_at := t, next_invite_at := t + max 1 delay,
            ok := st.ok + 1, attempts := st.attempts + 1 }

/-- Wellformedness of a sequence of successful dispatches `(tg, t)` for
one session: clocks advance, and each dispatch happens no earlier than
the session's (post-gate) `next_invite_at` — which the loop guarantees
since the scheduler only dispatches a ready session (readiness is the max
of `blocked_until`, `frozen_until` and `next_invite_at`). -/
def validEvents (per_hour_limit per_day_limit : Nat) (delay : Int) :
    Int → SessionState → List (Int × Int) → Bool
  | _, _, [] => true
  | tprev, st, (tg, t) :: rest =>
    let st1 := applyQuotaGate tg st per_hour_limit per_day_limit
    decide (tprev ≤ tg) && decide (tg ≤ t) && decide (st1.next_invite_at ≤ t) &&
      validEvents per_hour_limit per_day_limit delay t
        (successStep tg t delay st per_hour_limit per_day_limit) rest

/-- Final session state after a sequence of successful dispatches. -/
def runEvents (per_hour_limit per_day_limit : Nat) (delay : Int)
    (st : SessionState) : List (Int × Int) → SessionState
  | [] => st
  | (tg, t) :: rest =>
    runEvents per_hour_limit per_day_limit delay
      (successStep tg t delay st per_hour_limit per_day_limit) rest

/-- Number of dispatch times falling in the rolling window `(a, a+3600]`. -/
def countInWindow (times : List Int) (a : Int) : Nat :=
  (times.filter (fun t => decide (a < t) && decide (t ≤ a + 3600))).length

/- ------------------------------------------------------------------ -/
/- Night-mode gate                                                     -/
/- ------------------------------------------------------------------ -/

/-- Model of `_is_time_in_window` from `defunc.py`, over the minute-of-day
`cur = tm_hour * 60 + tm_min` of `time.localtime(now_sec)`: true inside
the `[start, end]` window, windows crossing midnight supported. -/
def is_time_in_window (cur : Nat) (start_h start_m end_h end_m : Nat) : Bool :=
  let start := start_h * 60 + start_m
  let e := end_h * 60 + end_m
  if start ≤ e then decide (start ≤ cur ∧ cur ≤ e)
  else decide (start ≤ cur ∨ cur ≤ e)

/-- Model of `_seconds_until_window_end` from `defunc.py`, over the same
minute-of-day clock reading: seconds until the window's end when inside
it, else 0. -/
def seconds_until_window_end (cur : Nat)
    (start_h start_m end_h end_m : Nat) : Nat :=
  if !is_time_in_window cur start_h start_m end_h end_m then 0
  else
    let end_min := end_h * 60 + end_m
    let start_min := start_h * 60 + start_m
    if start_min ≤ end_min then (end_min - cur) * 60
    else if cur ≤ end_min then (end_min - cur) * 60
    else (24 * 60 - cur + end_min) * 60

/-- The night-mode gate at the head of the `inviting_rotate_sessions`
candidate loop: it sleeps (for `sec_left` plus jitter) exactly when night
mode is on, the local time is inside the window, and `sec_left > 0`. -/
def nightGateSleeps (night_mode : Bool) (cur : Nat)
    (night_start night_end : Nat × Nat) : Bool :=
  night_mode &&
    is_time_in_window cur night_start.1 night_start.2 night_end.1 night_end.2 &&
    decide (0 < seconds_until_window_end cur night_start.1 night_start.2
      night_end.1 night_end.2)

/- ------------------------------------------------------------------ -/
/- Ledger store and exclusion cache                                    -/
/- ------------------------------------------------------------------ -/

/-- One row of the `invites` table:
`(target, user_key) → (user_id, username, status, reason)`. -/
structure LEntry where
  target : String
  key : String
  userId : Option Int
  username : Option String
  status : String
  reason : String
deriving DecidableEq, Repr

/-- Model of `ledger_get(conn, target, user_key)`: status and reason of the row
for the pair, if any. -/
def ledgerGet : List LEntry → String → String → Option (String × String)
  | [], _, _ => none
  | e :: rest, t, k =>
    if e.target = t ∧ e.key = k then some (e.status, e.reason)
    else ledgerGet rest t k

/-- Model of `ledger_put(...)`: an `INSERT OR REPLACE` on the primary key
`(target, user_key)`. -/
def ledgerPut (l : List LEntry) (t k : String) (uid : Option Int)
    (uname : Option String) (status reason : String) : List LEntry :=
  ⟨t, k, uid, uname, status, reason⟩ ::
    l.filter (fun e => !(decide (e.target = t) && decide (e.key = k)))

/-- The terminal-skip statuses: `("ok", "already", "privacy", "invalid")`. -/
def terminalStatus (s : String) : Bool :=
  s = "ok" || s = "already" || s = "privacy" || s = "invalid"

/-- The executor's ledger gate: the pair's current status exists and is
terminal (`prev and prev[0] in ("ok", "already", "privacy", "invalid")`). -/
def isTerminalFor (ledger : List LEntry) (target k : String) : Bool :=
  match ledgerGet ledger target k with
  | some pr => terminalStatus pr.1
  | none => false

/-- Model of `excluded_add` plus the in-memory `excluded_cache.add`: membership in the
global exclusion set (hit counters and reasons are immaterial here). -/
def excludedAdd (l : List String) (k : String) : List String :=
  if k ∈ l then l else k :: l

/-- Association-list counters (`user_attempts`, `ok_in_session`,
`attempts_in_session` dicts), defaulting to 0. -/
def lookupN : List (String × Nat) → String → Nat
  | [], _ => 0
  | p :: rest, k => if p.1 = k then p.2 else lookupN rest k

/-- Update a counter entry. -/
def setN : List (String × Nat) → String → Nat → List (String × Nat)
  | [], k, v => [(k, v)]
  | p :: rest, k, v =>
    if p.1 = k then (k, v) :: rest else p :: setN rest k v

/-- Mutation of the picked session inside the shared list: the source
mutates the `SessionState` object in place; the list holds references. -/
def updateStates (l : List SessionState) (sf : String)
    (f : SessionState → SessionState) : List SessionState :=
  l.map (fun s => if s.session_file = sf then f s else s)

/- ------------------------------------------------------------------ -/
/- Classified dispatch outcomes and the executor loops                 -/
/- ------------------------------------------------------------------ -/

/-- Classified outcome of one `client(InviteToChannelRequest(...))` call:
one constructor per `except` arm of the source (success = no exception).
`writeForbidden` carries whether `_diagnose_invite_context` reported
`UserNotParticipantError`; `floodWait` carries the wait seconds. -/
inductive DispatchOutcome where
  | success
  | alreadyParticipant
  | privacyRestricted
  | notMutualContact
  | channelsTooMuch
  | userKicked
  | userBlocked
  | writeForbidden (diagNotParticipant : Bool)
  | floodWait (sec : Nat)
  | invalidUser
  | adminRequired
  | peerFlood
  | valueError
  | networkError
  | rpcError
  | unknownError
deriving DecidableEq, Repr

/-- Per-candidate environment: the clock readings and random draws of one
loop iteration, plus the provider's classified outcome.  `now` is the
clock at the soft-limit gate and pick; `dnow` the clock inside the
dispatch handler; `newDelay` the adaptive delay after a success (a
clamped random nudge in the source); `rotJitter`/`capJitter` the random
penalties of the planned-rotation and per-session-cap branches. -/
structure StepEnv where
  now : Int := 0
  dnow : Int := 0
  clientOk : Bool := true
  outcome : DispatchOutcome := .success
  newDelay : Int := 2
  rotJitter : Int := 5
  capJitter : Int := 15
deriving Repr

/-- Configuration of `inviting_rotate_sessions` (defaults as in the
source signature). -/
structure RotCfg where
  targetKey : String
  switchOnFloodwaitSeconds : Nat := 60
  rotateEvery : Nat := 0
  maxAttemptsPerSession : Nat := 0
  perHourLimit : Nat := 0
  perDayLimit : Nat := 0
  maxUserAttempts : Nat := 3
  peerfloodFreezeHours : Nat := 24
  floodwaitBufferSeconds : Nat := 60
deriving Repr

/-- Mutable state of one `inviting_rotate_sessions` run.  `dispatched`
and `capSkips` are instrumentation counters absent from the source: they
count, respectively, performed dispatch calls and visits to the per-user
attempt-cap branch, so that theorems can speak about them. -/
structure RunState where
  ledger : List LEntry
  excludedCache : List String
  states : List SessionState
  okCnt : Nat := 0
  skipCnt : Nat := 0
  failCnt : Nat := 0
  userAttempts : List (String × Nat) := []
  okInSession : List (String × Nat) := []
  attemptsInSession : List (String × Nat) := []
  delay : Int := 2
  halted : Bool := false
  dispatched : Nat := 0
  capSkips : Nat := 0
deriving Repr

/-- Session mutation of the `PeerFloodError` arm: `st.fail += 1` and
`st.frozen_until = max(st.frozen_until, now + freeze_hours * 3600)`. -/
def peerfloodFreeze (dnow : Int) (hours : Nat) (s : SessionState) :
    SessionState :=
  { s with fail := s.fail + 1,
           frozen_until := max s.frozen_until (dnow + (hours : Int) * 3600) }

/-- Attempt bump `st.attempts += 1`, performed just before the dispatch call. -/
def bumpAttempts (s : SessionState) : SessionState :=
  { s with attempts := s.attempts + 1 }

/-- The `try`/`except` ladder of `inviting_rotate_sessions` for one
dispatched candidate, updating ledger, exclusion cache, counters and the
picked session's state (`sf`).  The Russian reason strings of the source
are abbreviated; no verified property reads them. -/
def rotOutcome (cfg : RotCfg) (env : StepEnv) (rs : RunState) (sf uk : String)
    (uid : Option Int) (uname : Option String) : RunState :=
  let put (status reason : String) : List LEntry :=
    ledgerPut rs.ledger cfg.targetKey uk uid uname status reason
  match env.outcome with
  | .success =>
    let okIn := lookupN rs.okInSession sf + 1
    let rotate := cfg.rotateEvery ≠ 0 ∧ cfg.rotateEvery ≤ okIn
    { rs with
      ledger := put "ok" ("session=" ++ sf),
      states := updateStates rs.states sf (fun s =>
        let s := session_consume_invite_token env.dnow s cfg.perHourLimit cfg.perDayLimit
        let s := { s with ok := s.ok + 1, last_invite_at := env.dnow,
                          next_invite_at := env.dnow + max 1 rs.delay }
        if rotate then
          { s with next_invite_at := max s.next_invite_at (env.dnow + env.rotJitter) }
        else s),
      okCnt := rs.okCnt + 1,
      okInSession := setN rs.okInSession sf (if rotate then 0 else okIn),
      delay := env.newDelay }
  | .alreadyParticipant =>
    { rs with ledger := put "already" "already member", skipCnt := rs.skipCnt + 1 }
  | .privacyRestricted =>
    { rs with ledger := put "privacy" "invites closed",
              excludedCache := excludedAdd rs.excludedCache uk,
              skipCnt := rs.skipCnt + 1 }
  | .notMutualContact =>
    { rs with ledger := put "skip" "not_mutual_contact",
              excludedCache := excludedAdd rs.excludedCache uk,
              skipCnt := rs.skipCnt + 1 }
  | .channelsTooMuch =>
    { rs with ledger := put "skip" "user_channels_too_much",
              excludedCache := excludedAdd rs.excludedCache uk,
              skipCnt := rs.skipCnt + 1 }
  | .userKicked =>
    { rs with ledger := put "skip" "user_kicked",
              excludedCache := excludedAdd rs.excludedCache uk,
              skipCnt := rs.skipCnt + 1 }
  | .userBlocked =>
    { rs with ledger := put "skip" "user_blocked",
              excludedCache := excludedAdd rs.excludedCache uk,
              skipCnt := rs.skipCnt + 1 }
  | .writeForbidden diag =>
    { rs with
      excludedCache := if diag then excludedAdd rs.excludedCache uk
                       else rs.excludedCache,
      ledger := put "forbidden" "ChatWriteForbiddenError",
      states := updateStates rs.states sf (fun s =>
        { s with fail := s.fail + 1,
                 blocked_until := max s.blocked_until (env.dnow + 7 * 24 * 3600) }),
      failCnt := rs.failCnt + 1 }
  | .floodWait sec =>
    { rs with
      ledger := put "floodwait" (toString sec),
      states := updateStates rs.states sf (fun s =>
        { s with fail := s.fail + 1,
                 blocked_until := max s.blocked_until
                   (env.dnow + (sec : Int) + (cfg.floodwaitBufferSeconds : Int)) }),
      failCnt := rs.failCnt + 1,
      delay := min 15 (max rs.delay 6) }
  | .invalidUser =>
    { rs with ledger := put "invalid" "invalid user",
              excludedCache := excludedAdd rs.excludedCache uk,
              skipCnt := rs.skipCnt + 1 }
  | .adminRequired =>
    { rs with ledger := put "stop" "no invite rights", halted := true }
  | .peerFlood =>
    { rs with
      ledger := put "peerflood" "PeerFlood",
      states := updateStates rs.states sf
        (peerfloodFreeze env.dnow cfg.peerfloodFreezeHours),
      failCnt := rs.failCnt + 1 }
  | .valueError =>
    { rs with ledger := put "skip" "no access_hash",
              excludedCache := excludedAdd rs.excludedCache uk,
              skipCnt := rs.skipCnt + 1 }
  | .networkError =>
    { rs with
      states := updateStates rs.states sf (fun s =>
        { s with fail := s.fail + 1,
                 blocked_until := max s.blocked_until (env.dnow + 60) }),
      failCnt := rs.failCnt + 1 }
  | .rpcError =>
    { rs with ledger := put "failed" "RPCError",
              states := updateStates rs.states sf (fun s => { s with fail := s.fail + 1 }),
              failCnt := rs.failCnt + 1 }
  | .unknownError =>
    { rs with ledger := put "failed" "Exception",
              states := updateStates rs.states sf (fun s => { s with fail := s.fail + 1 }),
              failCnt := rs.failCnt + 1 }

/-- The gated session list of one iteration: the per-session soft-limit
pass that precedes the pick. -/
def gatedStates (cfg : RotCfg) (env : StepEnv)
    (states : List SessionState) : List SessionState :=
  if cfg.perHourLimit ≠ 0 ∨ cfg.perDayLimit ≠ 0 then
    states.map (fun s => applyQuotaGate env.now s cfg.perHourLimit cfg.perDayLimit)
  else states

/-- The per-session attempt cap applied after a (non-fatal) dispatch:
after `max_attempts_per_session` attempts the session's counter resets
and its `next_invite_at` is pushed by a random pause. -/
def rotCapCheck (cfg : RotCfg) (env : StepEnv) (sf : String)
    (rs : RunState) : RunState :=
  if rs.halted then rs
  else if cfg.maxAttemptsPerSession ≠ 0 ∧
      cfg.maxAttemptsPerSession ≤ lookupN rs.attemptsInSession sf then
    { rs with
      attemptsInSession := setN rs.attemptsInSession sf 0,
      states := updateStates rs.states sf (fun s =>
        { s with next_invite_at := max s.next_invite_at (env.dnow + env.capJitter) }) }
  else rs

/-- The dispatch phase for a picked session: client check (an invalid
session is banned and the candidate silently dropped), attempt counting,
the dispatch itself, outcome handling and the per-session attempt cap. -/
def rotDispatch (cfg : RotCfg) (env : StepEnv) (rs : RunState)
    (st : SessionState) (uk : String) (uid : Option Int)
    (uname : Option String) : RunState :=
  if env.clientOk = false then
    { rs with states := updateStates rs.states st.session_file (fun s =>
        { s with banned := true, fail := s.fail + 1,
                 attempts := s.attempts + 1,
                 next_invite_at := max s.next_invite_at (env.now + 3600) }) }
  else
    let sf := st.session_file
    let rs := { rs with
      states := updateStates rs.states sf bumpAttempts,
      attemptsInSession := setN rs.attemptsInSession sf
        (lookupN rs.attemptsInSession sf + 1),
      dispatched := rs.dispatched + 1 }
    rotCapCheck cfg env sf (rotOutcome cfg env rs sf uk uid uname)

/-- One iteration of the `inviting_rotate_sessions` candidate loop:
night-mode gate (a pure wait, no state effect) → exclusion check →
ledger terminal check → per-user attempt cap → soft-limit gate → pick
(sleeping, then re-picking the unchanged states, when not ready) →
dispatch phase. -/
def procRotate (cfg : RotCfg) (rs : RunState) (c : UserRef × StepEnv) :
    RunState :=
  let raw := c.1
  let env := c.2
  if rs.halted then rs
  else
    let p := parse_user_ref raw
    if p.key ∈ rs.excludedCache then
      { rs with skipCnt := rs.skipCnt + 1,
                ledger := ledgerPut rs.ledger cfg.targetKey p.key p.userId
                  p.username "skip" "excluded" }
    else if isTerminalFor rs.ledger cfg.targetKey p.key then
      { rs with skipCnt := rs.skipCnt + 1 }
    else
      let ua := lookupN rs.userAttempts p.key + 1
      let rs := { rs with userAttempts := setN rs.userAttempts p.key ua }
      if cfg.maxUserAttempts ≠ 0 ∧ cfg.maxUserAttempts < ua then
        { rs with
          ledger := ledgerPut rs.ledger cfg.targetKey p.key p.userId p.username
            "skip" ("max_attempts=" ++ toString cfg.maxUserAttempts),
          skipCnt := rs.skipCnt + 1, capSkips := rs.capSkips + 1 }
      else
        let sts := gatedStates cfg env rs.states
        let rs := { rs with states := sts }
        match pick_best_session sts with
        | none => { rs with halted := true }
        | some st => rotDispatch cfg env rs st p.key p.userId p.username

/-- A full `inviting_rotate_sessions` run over a candidate list paired
with its per-iteration environments. -/
def runRotate (cfg : RotCfg) (rs : RunState)
    (cs : List (UserRef × StepEnv)) : RunState :=
  cs.foldl (procRotate cfg) rs

/-- Mutable state of one single-session `inviting` run (`dispatched` is
instrumentation as in `RunState`). -/
structure RunState1 where
  ledger : List LEntry
  excludedCache : List String
  okCnt : Nat := 0
  skipCnt : Nat := 0
  failCnt : Nat := 0
  delay : Int := 2
  halted : Bool := false
  dispatched : Nat := 0
deriving Repr

/-- The `try`/`except` ladder of single-session `inviting`.  Differences
from the rotating loop: no session state to update, `FloodWaitError`
waits in place, network failures do write a `failed` ledger row, and
`PeerFloodError` — like `ChatAdminRequiredError` — executes `break`. -/
def singleOutcome (env : StepEnv) (target : String) (rs : RunState1)
    (uk : String) (uid : Option Int) (uname : Option String) : RunState1 :=
  let put (status reason : String) : List LEntry :=
    ledgerPut rs.ledger target uk uid uname status reason
  match env.outcome with
  | .success =>
    { rs with ledger := put "ok" "ok", okCnt := rs.okCnt + 1,
              delay := env.newDelay }
  | .alreadyParticipant =>
    { rs with ledger := put "already" "already member", skipCnt := rs.skipCnt + 1 }
  | .privacyRestricted =>
    { rs with ledger := put "privacy" "invites closed",
              excludedCache := excludedAdd rs.excludedCache uk,
              skipCnt := rs.skipCnt + 1 }
  | .notMutualContact =>
    { rs with ledger := put "skip" "not_mutual_contact",
              excludedCache := excludedAdd rs.excludedCache uk,
              skipCnt := rs.skipCnt + 1 }
  | .channelsTooMuch =>
    { rs with ledger := put "skip" "user_channels_too_much",
              excludedCache := excludedAdd rs.excludedCache uk,
              skipCnt := rs.skipCnt + 1 }
  | .userKicked =>
    { rs with ledger := put "skip" "user_kicked",
              excludedCache := excludedAdd rs.excludedCache uk,
              skipCnt := rs.skipCnt + 1 }
  | .userBlocked =>
    { rs with ledger := put "skip" "user_blocked",
              excludedCache := excludedAdd rs.excludedCache uk,
              skipCnt := rs.skipCnt + 1 }
  | .writeForbidden diag =>
    { rs with
      excludedCache := if diag then excludedAdd rs.excludedCache uk
                       else rs.excludedCache,
      ledger := put "forbidden" "ChatWriteForbiddenError",
      failCnt := rs.failCnt + 1 }
  | .floodWait sec =>
    { rs with ledger := put "floodwait" (toString sec),
              delay := min 12 (max rs.delay 6),
              failCnt := rs.failCnt + 1 }
  | .invalidUser =>
    { rs with ledger := put "invalid" "invalid user",
              excludedCache := excludedAdd rs.excludedCache uk,
              skipCnt := rs.skipCnt + 1 }
  | .adminRequired =>
    { rs with ledger := put "stop" "no invite rights", halted := true }
  | .peerFlood =>
    { rs with ledger := put "peerflood" "PeerFlood", halted := true }
  | .valueError =>
    { rs with ledger := put "skip" "no access_hash",
              excludedCache := excludedAdd rs.excludedCache uk,
              skipCnt := rs.skipCnt + 1 }
  | .networkError =>
    { rs with ledger := put "failed" "ConnectionError", failCnt := rs.failCnt + 1 }
  | .rpcError =>
    { rs with ledger := put "failed" "RPCError", failCnt := rs.failCnt + 1 }
  | .unknownError =>
    { rs with ledger := put "failed" "Exception", failCnt := rs.failCnt + 1 }

/-- One iteration of the single-session `inviting` candidate loop:
exclusion check (no ledger write here) → ledger terminal check →
dispatch and outcome handling. -/
def procSingle (target : String) (rs : RunState1) (c : UserRef × StepEnv) :
    RunState1 :=
  let raw := c.1
  let env := c.2
  if rs.halted then rs
  else
    let p := parse_user_ref raw
    if p.key ∈ rs.excludedCache then
      { rs with skipCnt := rs.skipCnt + 1 }
    else if isTerminalFor rs.ledger target p.key then
      { rs with skipCnt := rs.skipCnt + 1 }
    else
      singleOutcome env target { rs with dispatched := rs.dispatched + 1 }
        p.key p.userId p.username

/-- A full single-session `inviting` run. -/
def runSingle (target : String) (rs : RunState1)
    (cs : List (UserRef × StepEnv)) : RunState1 :=
  cs.foldl (procSingle target) rs

/-- A safe key: a candidate key that will be skipped without dispatch —
globally excluded or with a terminal ledger status for the target. -/
def safeKey (ledger : List LEntry) (excl : List String) (t k : String) :
    Prop :=
  k ∈ excl ∨ isTerminalFor ledger t k = true

/-- Number of candidates whose key holds a terminal status in a given
ledger — the `K` of the idempotence property. -/
def initTerminalCount (ledger : List LEntry) (target : String)
    (users : List UserRef) : Nat :=
  (users.filter (fun r => isTerminalFor ledger target (userKeyOf r))).length

/- Auxiliary facts about the regex helpers. -/

lemma splitDigits_append (l : List Char) :
    (splitDigits l).1 ++ (splitDigits l).2 = l := by
  induction l with
  | nil => rfl
  | cons c cs ih =>
    by_cases h : c.isDigit
    · simp [splitDigits, h, ih]
    · simp [splitDigits, h]

lemma splitDigits_fst_digit (l : List Char) :
    ∀ c ∈ (splitDigits l).1, c.isDigit = true := by
  induction l with
  | nil => simp [splitDigits]
  | cons c cs ih =>
    by_cases h : c.isDigit
    · simp only [splitDigits, h, if_true]
      intro d hd
      rcases List.mem_cons.mp hd with h1 | h2
      · exact h1 ▸ h
      · exact ih d h2
    · simp [splitDigits, h]

lemma char_isDigit_ne_at {c : Char} (h : c.isDigit = true) : c ≠ '@' := by
  intro he; subst he; simp [Char.isDigit] at h

lemma char_colon_not_digit : (':' : Char).isDigit = false := by decide

/-- If the regex `(\d+):(\d+)` matches, the list starts with a digit and
contains a colon. -/
lemma digitsColonDigitsL_shape {l : List Char} {a h : Nat}
    (hm : digitsColonDigitsL l = some (a, h)) :
    (∃ c cs, l = c :: cs ∧ c.isDigit = true) ∧ ':' ∈ l := by
  unfold digitsColonDigitsL at hm
  split at hm
  · rename_i ds c rest hsp
    split at hm
    · rename_i hcond
      obtain ⟨hc, hds, _, _⟩ := hcond
      subst hc
      have hl : ds ++ ':' :: rest = l := by
        have := splitDigits_append l
        rw [hsp] at this; exact this
      constructor
      · rcases hds' : ds with _ | ⟨d, ds'⟩
        · exact absurd hds' hds
        · subst hds'
          refine ⟨d, ds' ++ ':' :: rest, by rw [← hl]; rfl, ?_⟩
          exact splitDigits_fst_digit l d (by rw [hsp]; exact List.mem_cons_self d ds')
      · rw [← hl]; simp
    · exact absurd hm (by simp)
  · exact absurd hm (by simp)

/-- If a list contains no colon, the regex `(\d+):(\d+)` cannot match. -/
lemma digitsColonDigitsL_none_of_no_colon {l : List Char}
    (h : ':' ∉ l) : digitsColonDigitsL l = none := by
  unfold digitsColonDigitsL
  split
  · rename_i ds c rest hsp
    have hl : ds ++ c :: rest = l := by
      have := splitDigits_append l
      rw [hsp] at this; exact this
    have hc : ¬(c = ':' ∧ ds ≠ [] ∧ rest ≠ [] ∧ rest.all Char.isDigit) := by
      rintro ⟨hc, -⟩
      exact h (by rw [← hl, hc]; simp)
    rw [if_neg hc]
  · rfl

/-- A digit string contains no colon, hence cannot be all digits if the
regex `(\d+):(\d+)` matches. -/
lemma pyIsDigitL_false_of_mem_colon {l : List Char} (h : ':' ∈ l) :
    pyIsDigitL l = false := by
  unfold pyIsDigitL
  rcases l with _ | ⟨c, cs⟩
  · simp at h
  · simp only [List.isEmpty_cons, Bool.not_false, Bool.true_and]
    rw [List.all_eq_false]
    exact ⟨':', h, by decide⟩

lemma isWordChar_ne_at {c : Char} (h : isWordChar c = true) : c ≠ '@' := by
  intro he; subst he; simp [isWordChar, Char.isAlphanum, Char.isAlpha,
    Char.isUpper, Char.isLower, Char.isDigit] at h

lemma isWordChar_ne_colon {c : Char} (h : isWordChar c = true) : c ≠ ':' := by
  intro he; subst he; simp [isWordChar, Char.isAlphanum, Char.isAlpha,
    Char.isUpper, Char.isLower, Char.isDigit] at h

lemma pyIsDigitL_false_of_head {c : Char} {cs : List Char}
    (h : c.isDigit = false) : pyIsDigitL (c :: cs) = false := by
  simp [pyIsDigitL, h]

/-- Reduction of `parse_user_ref` on a string whose stripped form is
nonempty and does not start with `'@'` and is not all digits. -/
lemma parse_user_ref_str_tail {s : String} {c : Char} {cs : List Char}
    (hst : pyStripL s.toList = c :: cs) (hat : c ≠ '@')
    (hdig : pyIsDigitL (c :: cs) = false) :
    parse_user_ref (.str s) =
      (match digitsColonDigitsL (c :: cs) with
       | some (uid, ah) =>
         ⟨"id:" ++ toString uid, some (uid : Int), none, .ent_peer uid ah⟩
       | none =>
         if isHandleL (c :: cs) then
           ⟨"u:" ++ String.mk (lowerL (c :: cs)), none,
             some (String.mk (c :: cs)), .ent_at (String.mk ('@' :: c :: cs))⟩
         else
           ⟨"raw:" ++ String.mk (c :: cs), none, none,
             .ent_raw (String.mk (c :: cs))⟩) := by
  simp only [parse_user_ref]
  rw [hst, hdig]
  simp only [Bool.false_eq_true, if_false]

lemma isHandleL_shape {l : List Char} (h : isHandleL l = true) :
    ∃ c cs, l = c :: cs ∧ isWordChar c = true := by
  rcases l with _ | ⟨c, cs⟩
  · simp [isHandleL] at h
  · have h' := h
    simp only [isHandleL, Bool.and_eq_true, List.all_cons] at h'
    exact ⟨c, cs, rfl, h'.2.1⟩

lemma isHandleL_no_colon {l : List Char} (h : isHandleL l = true) :
    ':' ∉ l := by
  intro hm
  have h' := h
  simp only [isHandleL, Bool.and_eq_true, List.all_eq_true] at h'
  exact isWordChar_ne_colon (h'.2 ':' hm) rfl

/-- C3: `parse_user_ref` maps every input to the documented stable
candidate key: an integer or all-digit string `n` gives `id:n` with the
bare id as entity; `digits:digits` gives `id:<first>` with an
`InputPeerUser(id, hash)` entity; a string starting with `@` gives
`u:<rest lowercased>` with entity `@rest`; a bare `[A-Za-z0-9_]` handle
of length ≥ 4 gives `u:<handle lowercased>` treated as a username; every
other string that is nonempty after stripping gives `raw:<s>`. -/
theorem parse_user_ref_candidate_forms :
    (∀ n : Int, parse_user_ref (.int n) =
      ⟨"id:" ++ toString n, some n, none, .ent_int n⟩) ∧
    (∀ s : String, pyIsDigitL (pyStripL s.toList) = true →
      parse_user_ref (.str s) =
        ⟨"id:" ++ toString (natOfDigitsL (pyStripL s.toList)),
          some (natOfDigitsL (pyStripL s.toList) : Int), none,
          .ent_int (natOfDigitsL (pyStripL s.toList) : Int)⟩) ∧
    (∀ (s : String) (a h : Nat),
      digitsColonDigitsL (pyStripL s.toList) = some (a, h) →
      parse_user_ref (.str s) =
        ⟨"id:" ++ toString a, some (a : Int), none, .ent_peer a h⟩) ∧
    (∀ (s : String) (rest : List Char), pyStripL s.toList = '@' :: rest →
      parse_user_ref (.str s) =
        ⟨"u:" ++ String.mk (lowerL rest), none, some (String.mk rest),
          .ent_at (String.mk ('@' :: rest))⟩) ∧
    (∀ s : String, isHandleL (pyStripL s.toList) = true →
      pyIsDigitL (pyStripL s.toList) = false →
      parse_user_ref (.str s) =
        ⟨"u:" ++ String.mk (lowerL (pyStripL s.toList)), none,
          some (String.mk (pyStripL s.toList)),
          .ent_at (String.mk ('@' :: pyStripL s.toList))⟩) ∧
    (∀ (s : String) (c : Char) (cs : List Char),
      pyStripL s.toList = c :: cs → c ≠ '@' →
      pyIsDigitL (c :: cs) = false → digitsColonDigitsL (c :: cs) = none →
      isHandleL (c :: cs) = false →
      parse_user_ref (.str s) =
        ⟨"raw:" ++ String.mk (c :: cs), none, none,
          .ent_raw (String.mk (c :: cs))⟩) := by
  refine ⟨fun n => rfl, ?_, ?_, ?_, ?_, ?_⟩
  · intro s hdig
    simp only [parse_user_ref]
    rw [hdig]
    simp
  · intro s a h hm
    obtain ⟨⟨c, cs, hshape, hcdig⟩, hcol⟩ := digitsColonDigitsL_shape hm
    rw [hshape] at hm hcol
    have hdig : pyIsDigitL (c :: cs) = false := pyIsDigitL_false_of_mem_colon hcol
    rw [parse_user_ref_str_tail hshape (char_isDigit_ne_at hcdig) hdig, hm]
  · intro s rest hshape
    have hdig : pyIsDigitL (pyStripL s.toList) = false := by
      rw [hshape]
      exact pyIsDigitL_false_of_head (by decide)
    simp only [parse_user_ref]
    rw [hshape] at hdig
    rw [hshape, hdig]
    simp only [Bool.false_eq_true, if_false]
  · intro s hhandle hdig
    obtain ⟨c, cs, hshape, hword⟩ := isHandleL_shape hhandle
    rw [hshape] at hhandle hdig
    rw [hshape]
    have hnone : digitsColonDigitsL (c :: cs) = none :=
      digitsColonDigitsL_none_of_no_colon (isHandleL_no_colon hhandle)
    rw [parse_user_ref_str_tail hshape (isWordChar_ne_at hword) hdig, hnone]
    simp [hhandle]
  · intro s c cs hshape hat hdig hnone hnoh
    rw [parse_user_ref_str_tail hshape hat hdig, hnone]
    simp [hnoh]

/-- Witness for C3: each input form evaluated at a concrete candidate. -/
theorem parse_user_ref_candidate_forms_witness :
    parse_user_ref (.int 7) = ⟨"id:7", some 7, none, .ent_int 7⟩ ∧
    parse_user_ref (.str " 0123 ") = ⟨"id:123", some 123, none, .ent_int 123⟩ ∧
    parse_user_ref (.str "55:66") = ⟨"id:55", some 55, none, .ent_peer 55 66⟩ ∧
    parse_user_ref (.str "@Bob") = ⟨"u:bob", none, some "Bob", .ent_at "@Bob"⟩ ∧
    parse_user_ref (.str "John_Doe") =
      ⟨"u:john_doe", none, some "John_Doe", .ent_at "@John_Doe"⟩ ∧
    parse_user_ref (.str " a b ") = ⟨"raw:a b", none, none, .ent_raw "a b"⟩ := by
  refine ⟨parse_user_ref_candidate_forms.1 7, ?_, ?_, ?_, ?_, ?_⟩
  · rw [parse_user_ref_candidate_forms.2.1 " 0123 " (by decide)]
    decide
  · rw [parse_user_ref_candidate_forms.2.2.1 "55:66" 55 66 (by decide)]
    decide
  · rw [parse_user_ref_candidate_forms.2.2.2.1 "@Bob" ['B', 'o', 'b'] (by decide)]
    decide
  · rw [parse_user_ref_candidate_forms.2.2.2.2.1 "John_Doe" (by decide) (by decide)]
    decide
  · rw [parse_user_ref_candidate_forms.2.2.2.2.2 " a b " 'a' [' ', 'b']
      (by decide) (by decide) (by decide) (by decide) (by decide)]
    decide

/-- C9: any non-int input whose string form strips to the empty string is
mapped to the key `"empty"` with `user_id`, `username` and entity all
`None` — a fifth key shape outside the documented `id:`/`u:`/`raw:`
forms, with nothing to dispatch to. -/
theorem parse_user_ref_empty_input (s : String)
    (h : pyStripL s.toList = []) :
    parse_user_ref (.str s) = ⟨"empty", none, none, .ent_none⟩ := by
  simp only [parse_user_ref]
  rw [h]
  simp [pyIsDigitL]

/-- Witness for C9: the whitespace-only string. -/
theorem parse_user_ref_empty_input_witness :
    pyStripL "  ".toList = [] ∧
    parse_user_ref (.str "  ") = ⟨"empty", none, none, .ent_none⟩ :=
  ⟨by decide, parse_user_ref_empty_input "  " (by decide)⟩

/- ------------------------------------------------------------------ -/
/- Scheduler: `_pick_best_session`                                     -/
/- ------------------------------------------------------------------ -/

lemma keyLt_irrefl (a : Int × Int × Int) : ¬keyLt a a := by
  unfold keyLt; omega

lemma keyLe_refl (a : Int × Int × Int) : keyLe a a := keyLt_irrefl a

lemma keyLt_asymm {a b : Int × Int × Int} (h : keyLt a b) : ¬keyLt b a := by
  unfold keyLt at *; omega

lemma keyLe_of_keyLt {a b : Int × Int × Int} (h : keyLt a b) : keyLe a b :=
  keyLt_asymm h

lemma keyLe_trans {a b c : Int × Int × Int} (hab : keyLe a b)
    (hbc : keyLe b c) : keyLe a c := by
  unfold keyLe keyLt at *; omega

lemma pick_none_of_all_banned {states : List SessionState}
    (h : ∀ st ∈ states, st.banned = true) :
    pick_best_session states = none := by
  induction states with
  | nil => rfl
  | cons a rest ih =>
    have hb : a.banned = true := h a (List.mem_cons_self a rest)
    simp [pick_best_session, hb,
      ih (fun s hs => h s (List.mem_cons_of_mem _ hs))]

lemma all_banned_of_pick_none {states : List SessionState}
    (h : pick_best_session states = none) :
    ∀ st ∈ states, st.banned = true := by
  induction states with
  | nil => simp
  | cons a rest ih =>
    intro s hs
    by_cases hb : a.banned = true
    · rw [pick_best_session, if_pos hb] at h
      rcases List.mem_cons.mp hs with rfl | hs'
      · exact hb
      · exact ih h s hs'
    · exfalso
      rw [pick_best_session, if_neg hb] at h
      cases hrest : pick_best_session rest <;> rw [hrest] at h
      · exact Option.some_ne_none a h
      · rename_i b
        by_cases hk : keyLt (sessKey b) (sessKey a) <;> simp [hk] at h

lemma pick_best_session_spec_some {states : List SessionState}
    {st : SessionState} (h : pick_best_session states = some st) :
    st.banned = false ∧ st ∈ states ∧
      ∀ s ∈ states, s.banned = false → keyLe (sessKey st) (sessKey s) := by
  induction states generalizing st with
  | nil => cases h
  | cons a rest ih =>
    by_cases hb : a.banned = true
    · rw [pick_best_session, if_pos hb] at h
      obtain ⟨h1, h2, h3⟩ := ih h
      refine ⟨h1, List.mem_cons_of_mem _ h2, fun s hs hsb => ?_⟩
      rcases List.mem_cons.mp hs with rfl | hs'
      · rw [hb] at hsb; cases hsb
      · exact h3 s hs' hsb
    · have hbf : a.banned = false := by
        cases hba : a.banned
        · rfl
        · exact absurd hba hb
      rw [pick_best_session, if_neg hb] at h
      cases hrest : pick_best_session rest <;> rw [hrest] at h
      · obtain rfl := Option.some.inj h
        refine ⟨hbf, List.mem_cons_self _ _, fun s hs hsb => ?_⟩
        rcases List.mem_cons.mp hs with rfl | hs'
        · exact keyLe_refl _
        · rw [all_banned_of_pick_none hrest s hs'] at hsb; cases hsb
      · rename_i b
        obtain ⟨h1, h2, h3⟩ := ih hrest
        have h' : (if keyLt (sessKey b) (sessKey a) then some b else some a) =
            some st := h
        by_cases hk : keyLt (sessKey b) (sessKey a)
        · rw [if_pos hk] at h'
          obtain rfl := Option.some.inj h'
          refine ⟨h1, List.mem_cons_of_mem _ h2, fun s hs hsb => ?_⟩
          rcases List.mem_cons.mp hs with rfl | hs'
          · exact keyLe_of_keyLt hk
          · exact h3 s hs' hsb
        · rw [if_neg hk] at h'
          obtain rfl := Option.some.inj h'
          refine ⟨hbf, List.mem_cons_self _ _, fun s hs hsb => ?_⟩
          rcases List.mem_cons.mp hs with rfl | hs'
          · exact keyLe_refl _
          · exact keyLe_trans hk (h3 s hs' hsb)

/-- C4: `_pick_best_session` never returns a banned session; among
non-banned sessions it returns one minimizing the lexicographic key
`(readiness, last_invite_at, attempts)` where
`readiness = max(blocked_until, frozen_until, next_invite_at)`; it
returns `None` exactly when the list is empty or every session is
banned. -/
theorem pick_best_session_correct (states : List SessionState) :
    (pick_best_session states = none ↔ ∀ st ∈ states, st.banned = true) ∧
    ∀ st, pick_best_session states = some st →
      st.banned = false ∧ st ∈ states ∧
        ∀ s ∈ states, s.banned = false → keyLe (sessKey st) (sessKey s) :=
  ⟨⟨fun h => all_banned_of_pick_none h, fun h => pick_none_of_all_banned h⟩,
    fun _ h => pick_best_session_spec_some h⟩

/-- Witness for C4: a banned actor, a later-ready actor, an
earlier-ready actor — the pick is the non-banned earliest-ready one. -/
theorem pick_best_session_correct_witness :
    pick_best_session
      [{ session_file := "a.session", banned := true },
       { session_file := "b.session", blocked_until := 50 },
       { session_file := "c.session", next_invite_at := 40 }] =
      some { session_file := "c.session", next_invite_at := 40 } ∧
    ({ session_file := "c.session", next_invite_at := 40 } : SessionState).banned
      = false ∧
    keyLe (sessKey { session_file := "c.session", next_invite_at := 40 })
      (sessKey { session_file := "b.session", blocked_until := 50 }) ∧
    (pick_best_session [{ session_file := "a.session", banned := true }] = none ↔
      ∀ st ∈ [({ session_file := "a.session", banned := true } : SessionState)],
        st.banned = true) := by
  have h := (pick_best_session_correct
    [{ session_file := "a.session", banned := true },
     { session_file := "b.session", blocked_until := 50 },
     { session_file := "c.session", next_invite_at := 40 }]).2
    { session_file := "c.session", next_invite_at := 40 } (by decide)
  refine ⟨by decide, h.1, ?_, (pick_best_session_correct _).1⟩
  exact h.2.2 { session_file := "b.session", blocked_until := 50 }
    (by decide) (by decide)

/- ------------------------------------------------------------------ -/
/- Rate governor: `session_next_time_due_to_limits`                    -/
/- ------------------------------------------------------------------ -/

/-- Counterexample to C5 as stated: with both windows exhausted
(`hour` resets at 3700, `day` at 86450) the function returns the later
reset instant 86450, not the earliest future reset 3700. -/
theorem session_next_time_due_to_limits_not_earliest :
    session_next_time_due_to_limits
      { session_file := "a.session", hour_window_start := 100, hour_count := 1,
        day_window_start := 50, day_count := 1 } 1 1 = 86450 ∧
    min ((100 : Int) + 3600) ((50 : Int) + 86400) = 3700 ∧
    session_next_time_due_to_limits
      { session_file := "a.session", hour_window_start := 100, hour_count := 1,
        day_window_start := 50, day_count := 1 } 1 1 ≠
      min ((100 : Int) + 3600) ((50 : Int) + 86400) := by
  refine ⟨by decide, by decide, by decide⟩

/-- C5 amended: `session_next_time_due_to_limits` returns 0 when no
enabled window is exhausted; when exactly one window is exhausted, that
window's reset instant (`hour_window_start + 3600` resp.
`day_window_start + 86400`); when both are exhausted, the **later** of
the two reset instants — the earliest time both limits permit an invite
again — not the earlier. -/
theorem session_next_time_due_to_limits_spec (st : SessionState)
    (ph pd : Nat) (hh : 0 ≤ st.hour_window_start)
    (hd : 0 ≤ st.day_window_start) :
    (¬(ph ≠ 0 ∧ ph ≤ st.hour_count) ∧ ¬(pd ≠ 0 ∧ pd ≤ st.day_count) →
      session_next_time_due_to_limits st ph pd = 0) ∧
    ((ph ≠ 0 ∧ ph ≤ st.hour_count) ∧ ¬(pd ≠ 0 ∧ pd ≤ st.day_count) →
      session_next_time_due_to_limits st ph pd = st.hour_window_start + 3600) ∧
    (¬(ph ≠ 0 ∧ ph ≤ st.hour_count) ∧ (pd ≠ 0 ∧ pd ≤ st.day_count) →
      session_next_time_due_to_limits st ph pd = st.day_window_start + 86400) ∧
    ((ph ≠ 0 ∧ ph ≤ st.hour_count) ∧ (pd ≠ 0 ∧ pd ≤ st.day_count) →
      session_next_time_due_to_limits st ph pd =
        max (st.hour_window_start + 3600) (st.day_window_start + 86400)) := by
  unfold session_next_time_due_to_limits
  by_cases h1 : ph ≠ 0 ∧ ph ≤ st.hour_count <;>
    by_cases h2 : pd ≠ 0 ∧ pd ≤ st.day_count <;>
    simp [h1, h2] <;> omega

/-- Witness for C5 (amended): both windows exhausted at a concrete
state — the result is the later reset. -/
theorem session_next_time_due_to_limits_spec_witness :
    session_next_time_due_to_limits
      { session_file := "a.session", hour_window_start := 100, hour_count := 2,
        day_window_start := 50, day_count := 5 } 2 5 =
      max ((100 : Int) + 3600) ((50 : Int) + 86400) := by
  have h := session_next_time_due_to_limits_spec
    { session_file := "a.session", hour_window_start := 100, hour_count := 2,
      day_window_start := 50, day_count := 5 } 2 5 (by decide) (by decide)
  exact h.2.2.2 ⟨⟨by decide, by decide⟩, ⟨by decide, by decide⟩⟩

/- ------------------------------------------------------------------ -/
/- Night-mode gate                                                     -/
/- ------------------------------------------------------------------ -/

/-- Counterexample to C8 as stated: at the very end minute of the night
window (07:00 for a 02:00–07:00 window) the local time is still inside
the inclusive window, but `sec_left = 0` and the gate does not sleep
before the pick. -/
theorem night_gate_no_sleep_at_window_end :
    is_time_in_window 420 2 0 7 0 = true ∧
    seconds_until_window_end 420 2 0 7 0 = 0 ∧
    nightGateSleeps true 420 (2, 0) (7, 0) = false := by
  refine ⟨by decide, by decide, by decide⟩

/-- Inside the window, the computed seconds-to-end are positive exactly
away from the window's final minute. -/
lemma seconds_until_window_end_pos_iff {cur sh sm eh em : Nat}
    (hw : is_time_in_window cur sh sm eh em = true) (hcur : cur < 1440) :
    0 < seconds_until_window_end cur sh sm eh em ↔ cur ≠ eh * 60 + em := by
  have hw' := hw
  simp only [is_time_in_window] at hw'
  simp only [seconds_until_window_end, hw]
  simp only [Bool.not_true, Bool.false_eq_true, if_false]
  split_ifs at hw' ⊢ <;> simp only [decide_eq_true_eq] at hw' <;> omega

/-- C8 amended: with night mode enabled the gate, checked before every
candidate's pick and dispatch, sleeps until the window's end (plus
jitter) whenever the current local time lies inside the configured
window — including windows crossing midnight — **except** in the
window's final minute, where the minute-granular `sec_left` is 0 and the
loop proceeds without sleeping. -/
theorem night_gate_sleeps_iff (night_mode : Bool) (cur sh sm eh em : Nat)
    (hcur : cur < 1440) :
    nightGateSleeps night_mode cur (sh, sm) (eh, em) = true ↔
      night_mode = true ∧ is_time_in_window cur sh sm eh em = true ∧
        cur ≠ eh * 60 + em := by
  unfold nightGateSleeps
  simp only [Bool.and_eq_true, decide_eq_true_eq]
  constructor
  · rintro ⟨⟨hn, hw⟩, hs⟩
    exact ⟨hn, hw, (seconds_until_window_end_pos_iff hw hcur).mp hs⟩
  · rintro ⟨hn, hw, hne⟩
    exact ⟨⟨hn, hw⟩, (seconds_until_window_end_pos_iff hw hcur).mpr hne⟩

/-- Witness for C8 (amended): a midnight-crossing window 23:00–06:00 at
local time 23:30 — the gate sleeps. -/
theorem night_gate_sleeps_iff_witness :
    nightGateSleeps true 1410 (23, 0) (6, 0) = true := by
  exact (night_gate_sleeps_iff true 1410 23 0 6 0 (by decide)).mpr
    ⟨rfl, by decide, by decide⟩

/- ------------------------------------------------------------------ -/
/- Quota bound (hour window)                                           -/
/- ------------------------------------------------------------------ -/

/-- Counterexample to C6 as stated: with `per_hour_limit = 2`, a valid
sequence of gated dispatches at times 10, 3500, 3610, 3620 (the fixed
hour window starting at 10 expires at 3610, resetting the counter) puts
3 successful dispatches inside the rolling 3600-second interval
(100, 3700]. -/
theorem hour_quota_rolling_window_violated :
    validEvents 2 0 1 0
      { session_file := "s1.session", hour_window_start := 10 }
      [(10, 10), (3500, 3500), (3610, 3610), (3620, 3620)] = true ∧
    countInWindow [10, 3500, 3610, 3620] 100 = 3 ∧ 2 < 3 := by
  refine ⟨by decide, by decide, by decide⟩

lemma next_due_ge_hour (st : SessionState) (H pd : Nat) (hH : H ≠ 0)
    (hcnt : H ≤ st.hour_count) (h0 : 0 ≤ st.hour_window_start) :
    st.hour_window_start + 3600 ≤ session_next_time_due_to_limits st H pd ∧
    session_next_time_due_to_limits st H pd ≠ 0 := by
  simp only [session_next_time_due_to_limits]
  split_ifs <;> constructor <;> omega

lemma applyQuotaGate_reaches (tg : Int) (st : SessionState) (ph pd : Nat) :
    session_next_time_due_to_limits st ph pd ≤
      (applyQuotaGate tg st ph pd).next_invite_at ∨
    session_next_time_due_to_limits st ph pd ≤ tg ∨
    session_next_time_due_to_limits st ph pd = 0 := by
  simp only [applyQuotaGate]
  split_ifs with h
  · left
    exact le_max_right _ _
  · rcases Decidable.not_and_iff_or_not.mp h with h1 | h2
    · right; right; exact Decidable.not_not.mp h1
    · right; left; omega

lemma applyQuotaGate_hour_count (tg : Int) (st : SessionState) (ph pd : Nat) :
    (applyQuotaGate tg st ph pd).hour_count = st.hour_count := by
  simp only [applyQuotaGate]; split <;> rfl

lemma applyQuotaGate_hour_window (tg : Int) (st : SessionState) (ph pd : Nat) :
    (applyQuotaGate tg st ph pd).hour_window_start = st.hour_window_start := by
  simp only [applyQuotaGate]; split <;> rfl

/-- If the hour counter is full and the dispatch time respects the gated
`next_invite_at`, the dispatch necessarily falls after the fixed window's
expiry, so the consume will reset the window. -/
lemma hour_reset_of_full {H pd : Nat} {tg t : Int} {st : SessionState}
    (hH : 1 ≤ H) (htg : tg ≤ t)
    (hready : (applyQuotaGate tg st H pd).next_invite_at ≤ t)
    (h0 : 0 ≤ st.hour_window_start) (hcnt : H ≤ st.hour_count) :
    st.hour_window_start ≤ 0 ∨ 3600 ≤ t - st.hour_window_start := by
  have hdue := next_due_ge_hour st H pd (by omega) hcnt h0
  rcases applyQuotaGate_reaches tg st H pd with h | h | h
  · right; omega
  · right; omega
  · exact absurd h hdue.2

lemma consume_hour_fields (now : Int) (st : SessionState) (ph pd : Nat)
    (hph : ph ≠ 0) :
    (session_consume_invite_token now st ph pd).hour_count =
      (if st.hour_window_start ≤ 0 ∨ 3600 ≤ now - st.hour_window_start then 0
       else st.hour_count) + 1 ∧
    (session_consume_invite_token now st ph pd).hour_window_start =
      (if st.hour_window_start ≤ 0 ∨ 3600 ≤ now - st.hour_window_start then now
       else st.hour_window_start) := by
  simp only [session_consume_invite_token]
  by_cases h1 : st.hour_window_start ≤ 0 ∨ 3600 ≤ now - st.hour_window_start
  · rw [if_pos h1]
    split_ifs <;> simp_all
  · rw [if_neg h1]
    split_ifs <;> simp_all

lemma successStep_hour_fields (tg t delay : Int) (st : SessionState)
    (H pd : Nat) (hH : H ≠ 0) :
    (successStep tg t delay st H pd).hour_count =
      (if st.hour_window_start ≤ 0 ∨ 3600 ≤ t - st.hour_window_start then 0
       else st.hour_count) + 1 ∧
    (successStep tg t delay st H pd).hour_window_start =
      (if st.hour_window_start ≤ 0 ∨ 3600 ≤ t - st.hour_window_start then t
       else st.hour_window_start) := by
  have h := consume_hour_fields t (applyQuotaGate tg st H pd) H pd hH
  rw [applyQuotaGate_hour_window, applyQuotaGate_hour_count] at h
  exact ⟨h.1, h.2⟩

lemma successStep_hour_inv (H pd : Nat) (delay tg t : Int)
    (st : SessionState) (hH : 1 ≤ H) (htg : tg ≤ t) (ht0 : 0 ≤ tg)
    (hready : (applyQuotaGate tg st H pd).next_invite_at ≤ t)
    (h0 : 0 ≤ st.hour_window_start) (_hcnt : st.hour_count ≤ H) :
    (successStep tg t delay st H pd).hour_count ≤ H ∧
    0 ≤ (successStep tg t delay st H pd).hour_window_start := by
  obtain ⟨hc, hw⟩ := successStep_hour_fields tg t delay st H pd (by omega)
  by_cases hre : st.hour_window_start ≤ 0 ∨ 3600 ≤ t - st.hour_window_start
  · rw [if_pos hre] at hc hw
    omega
  · rw [if_neg hre] at hc hw
    have hlt : st.hour_count < H := by
      by_contra hge
      push_neg at hge
      exact hre (hour_reset_of_full hH htg hready h0 hge)
    omega

/-- C6 amended: with `per_hour_limit = H ≥ 1`, along every wellformed
sequence of gated successful dispatches the hour counter never exceeds
`H` — i.e. at most `H` successes are attributed to the actor within each
**fixed** hour window `[hour_window_start, hour_window_start + 3600)`.
The rolling-3600-second version of the bound does not hold (see the
counterexample): up to `2H` successes can straddle a window boundary. -/
theorem hour_quota_fixed_window_bound (H pd : Nat) (delay : Int)
    (hH : 1 ≤ H) :
    ∀ (evs : List (Int × Int)) (st : SessionState) (tprev : Int),
      0 ≤ tprev → validEvents H pd delay tprev st evs = true →
      0 ≤ st.hour_window_start → st.hour_count ≤ H →
      (runEvents H pd delay st evs).hour_count ≤ H := by
  intro evs
  induction evs with
  | nil =>
    intro st tprev _ _ _ h
    simpa [runEvents] using h
  | cons e rest ih =>
    rcases e with ⟨tg, t⟩
    intro st tprev htp hv h0 hc
    simp only [validEvents, Bool.and_eq_true, decide_eq_true_eq] at hv
    obtain ⟨⟨⟨h1, h2⟩, h3⟩, h4⟩ := hv
    have step := successStep_hour_inv H pd delay tg t st hH h2
      (le_trans htp h1) h3 h0 hc
    exact ih (successStep tg t delay st H pd) t
      (le_trans (le_trans htp h1) h2) h4 step.2 step.1

/-- Witness for C6 (amended): the bound evaluated on the concrete
counterexample trace — the counter ends at 2 = H. -/
theorem hour_quota_fixed_window_bound_witness :
    (runEvents 2 0 1 { session_file := "s1.session", hour_window_start := 10 }
      [(10, 10), (3500, 3500), (3610, 3610), (3620, 3620)]).hour_count ≤ 2 :=
  hour_quota_fixed_window_bound 2 0 1 (by decide)
    [(10, 10), (3500, 3500), (3610, 3610), (3620, 3620)]
    { session_file := "s1.session", hour_window_start := 10 } 0
    (by decide) (by decide) (by decide) (by decide)

/- ------------------------------------------------------------------ -/
/- Halting behavior of the executor loops                              -/
/- ------------------------------------------------------------------ -/

lemma rotOutcome_halted (cfg : RotCfg) (env : StepEnv) (rs : RunState)
    (sf uk : String) (uid : Option Int) (uname : Option String) :
    (rotOutcome cfg env rs sf uk uid uname).halted =
      (if env.outcome = .adminRequired then true else rs.halted) := by
  obtain ⟨now, dnow, ck, oc, nd, rj, cj⟩ := env
  cases oc <;> rfl

lemma rotCapCheck_halted (cfg : RotCfg) (env : StepEnv) (sf : String)
    (rs : RunState) : (rotCapCheck cfg env sf rs).halted = rs.halted := by
  unfold rotCapCheck
  split_ifs <;> rfl

lemma rotDispatch_halted (cfg : RotCfg) (env : StepEnv) (rs : RunState)
    (st : SessionState) (uk : String) (uid : Option Int)
    (uname : Option String) (hoc : env.outcome ≠ .adminRequired) :
    (rotDispatch cfg env rs st uk uid uname).halted = rs.halted := by
  unfold rotDispatch
  split_ifs
  · rfl
  · rw [rotCapCheck_halted, rotOutcome_halted, if_neg hoc]

lemma singleOutcome_halted (env : StepEnv) (target : String) (rs : RunState1)
    (uk : String) (uid : Option Int) (uname : Option String) :
    (singleOutcome env target rs uk uid uname).halted =
      (if env.outcome = .adminRequired ∨ env.outcome = .peerFlood then true
       else rs.halted) := by
  obtain ⟨now, dnow, ck, oc, nd, rj, cj⟩ := env
  cases oc <;> simp [singleOutcome]

/-- C2 counterexample: in single-session `inviting`, an account-flagged
(`PeerFloodError`) outcome halts the whole run — the second candidate is
never dispatched even though nothing disqualifies it. -/
theorem inviting_peerflood_halts :
    (runSingle "@grp"
      { ledger := [], excludedCache := [] }
      [(.str "alice1", { outcome := .peerFlood }),
       (.str "bobby2", { outcome := .success })]).halted = true ∧
    (runSingle "@grp"
      { ledger := [], excludedCache := [] }
      [(.str "alice1", { outcome := .peerFlood }),
       (.str "bobby2", { outcome := .success })]).dispatched = 1 ∧
    (runSingle "@grp"
      { ledger := [], excludedCache := [] }
      [(.str "alice1", { outcome := .peerFlood }),
       (.str "bobby2", { outcome := .success })]).okCnt = 0 := by
  refine ⟨by decide, by decide, by decide⟩

/-- C2 amended: in `inviting_rotate_sessions` every classified outcome
except the administrative no-invite-permission condition
(`ChatAdminRequiredError`) lets the loop continue to the next candidate
(the only other way to stop is running out of available sessions); in
single-session `inviting`, however, `PeerFloodError` **also** halts the
run, so there the run continues exactly for outcomes other than
`ChatAdminRequiredError` and `PeerFloodError`. -/
theorem run_continues_except_fatal :
    (∀ (cfg : RotCfg) (env : StepEnv) (rs : RunState) (raw : UserRef),
      rs.halted = false →
      pick_best_session (gatedStates cfg env rs.states) ≠ none →
      env.outcome ≠ .adminRequired →
      (procRotate cfg rs (raw, env)).halted = false) ∧
    (∀ (target : String) (env : StepEnv) (rs : RunState1) (raw : UserRef),
      rs.halted = false →
      env.outcome ≠ .adminRequired → env.outcome ≠ .peerFlood →
      (procSingle target rs (raw, env)).halted = false) := by
  constructor
  · intro cfg env rs raw h0 hpick hoc
    simp only [procRotate]
    rw [h0]
    simp only [Bool.false_eq_true, if_false]
    split_ifs with h1 h2 h3
    · rfl
    · rfl
    · rfl
    · cases hp : pick_best_session (gatedStates cfg env rs.states) with
      | none => exact absurd hp hpick
      | some st =>
        simp only [hp]
        rw [rotDispatch_halted _ _ _ _ _ _ _ hoc]
  · intro target env rs raw h0 ha hp
    simp only [procSingle]
    rw [h0]
    simp only [Bool.false_eq_true, if_false]
    split_ifs with h1 h2
    · rfl
    · rfl
    · rw [singleOutcome_halted]
      simp [ha, hp]

/-- Witness for C2 (amended): a concrete `PeerFloodError` iteration in
the rotating loop does not halt; a concrete `FloodWaitError` iteration in
the single loop does not halt. -/
theorem run_continues_except_fatal_witness :
    (procRotate { targetKey := "@grp" }
      { ledger := [], excludedCache := [],
        states := [{ session_file := "s1.session" }] }
      (.str "alice1", { outcome := .peerFlood })).halted = false ∧
    (procSingle "@grp" { ledger := [], excludedCache := [] }
      (.str "alice1", { outcome := .floodWait 120 })).halted = false := by
  constructor
  · exact run_continues_except_fatal.1 { targetKey := "@grp" }
      { outcome := .peerFlood }
      { ledger := [], excludedCache := [],
        states := [{ session_file := "s1.session" }] }
      (.str "alice1") rfl (by decide) (by decide)
  · exact run_continues_except_fatal.2 "@grp" { outcome := .floodWait 120 }
      { ledger := [], excludedCache := [] } (.str "alice1") rfl
      (by decide) (by decide)

/- ------------------------------------------------------------------ -/
/- Per-user attempt cap (C10)                                          -/
/- ------------------------------------------------------------------ -/

lemma rotOutcome_userAttempts (cfg : RotCfg) (env : StepEnv) (rs : RunState)
    (sf uk : String) (uid : Option Int) (uname : Option String) :
    (rotOutcome cfg env rs sf uk uid uname).userAttempts = rs.userAttempts := by
  obtain ⟨now, dnow, ck, oc, nd, rj, cj⟩ := env
  cases oc <;> rfl

lemma rotOutcome_capSkips (cfg : RotCfg) (env : StepEnv) (rs : RunState)
    (sf uk : String) (uid : Option Int) (uname : Option String) :
    (rotOutcome cfg env rs sf uk uid uname).capSkips = rs.capSkips := by
  obtain ⟨now, dnow, ck, oc, nd, rj, cj⟩ := env
  cases oc <;> rfl

lemma rotCapCheck_userAttempts (cfg : RotCfg) (env : StepEnv) (sf : String)
    (rs : RunState) :
    (rotCapCheck cfg env sf rs).userAttempts = rs.userAttempts := by
  unfold rotCapCheck
  split_ifs <;> rfl

lemma rotCapCheck_capSkips (cfg : RotCfg) (env : StepEnv) (sf : String)
    (rs : RunState) :
    (rotCapCheck cfg env sf rs).capSkips = rs.capSkips := by
  unfold rotCapCheck
  split_ifs <;> rfl

lemma rotDispatch_userAttempts (cfg : RotCfg) (env : StepEnv) (rs : RunState)
    (st : SessionState) (uk : String) (uid : Option Int)
    (uname : Option String) :
    (rotDispatch cfg env rs st uk uid uname).userAttempts = rs.userAttempts := by
  unfold rotDispatch
  split_ifs
  · rfl
  · rw [rotCapCheck_userAttempts, rotOutcome_userAttempts]

lemma rotDispatch_capSkips (cfg : RotCfg) (env : StepEnv) (rs : RunState)
    (st : SessionState) (uk : String) (uid : Option Int)
    (uname : Option String) :
    (rotDispatch cfg env rs st uk uid uname).capSkips = rs.capSkips := by
  unfold rotDispatch
  split_ifs
  · rfl
  · rw [rotCapCheck_capSkips, rotOutcome_capSkips]

lemma lookupN_setN_ne (m : List (String × Nat)) (k k' : String) (v : Nat)
    (h : k' ≠ k) : lookupN (setN m k v) k' = lookupN m k' := by
  induction m with
  | nil =>
    show (if k = k' then v else lookupN [] k') = lookupN [] k'
    rw [if_neg (fun he => h he.symm)]
  | cons p rest ih =>
    by_cases hp : p.1 = k
    · rw [setN, if_pos hp]
      show (if k = k' then v else lookupN rest k') =
        (if p.1 = k' then p.2 else lookupN rest k')
      rw [if_neg (fun he => h he.symm),
        if_neg (fun he : p.1 = k' => h (he ▸ hp))]
    · rw [setN, if_neg hp]
      show (if p.1 = k' then p.2 else lookupN (setN rest k v) k') =
        (if p.1 = k' then p.2 else lookupN rest k')
      rw [ih]

/-- The cap branch is not taken and the attempt counters of other keys
are untouched in one iteration, provided the candidate's own in-run
counter is still below the cap. -/
lemma procRotate_step_cap (cfg : RotCfg) (rs : RunState)
    (c : UserRef × StepEnv)
    (hno : lookupN rs.userAttempts (parse_user_ref c.1).key + 1 ≤
      cfg.maxUserAttempts) :
    (procRotate cfg rs c).capSkips = rs.capSkips ∧
    ∀ k, k ≠ (parse_user_ref c.1).key →
      lookupN (procRotate cfg rs c).userAttempts k =
        lookupN rs.userAttempts k := by
  obtain ⟨raw, env⟩ := c
  replace hno : lookupN rs.userAttempts (parse_user_ref raw).key + 1 ≤
      cfg.maxUserAttempts := hno
  simp only [procRotate]
  split_ifs with h0 h1 h2 h3
  · exact ⟨rfl, fun k _ => rfl⟩
  · exact ⟨rfl, fun k _ => rfl⟩
  · exact ⟨rfl, fun k _ => rfl⟩
  · exact absurd h3.2 (by omega)
  · cases hp : pick_best_session (gatedStates cfg env rs.states) with
    | none => exact ⟨rfl, fun k hk => lookupN_setN_ne _ _ _ _ hk⟩
    | some st =>
      simp only [hp]
      rw [rotDispatch_capSkips, rotDispatch_userAttempts]
      exact ⟨rfl, fun k hk => lookupN_setN_ne _ _ _ _ hk⟩

lemma runRotate_capSkips_zero (cfg : RotCfg)
    (hmax : 1 ≤ cfg.maxUserAttempts) :
    ∀ (cs : List (UserRef × StepEnv)) (rs : RunState),
      (cs.map (fun c => (parse_user_ref c.1).key)).Nodup →
      (∀ c ∈ cs, lookupN rs.userAttempts (parse_user_ref c.1).key = 0) →
      rs.capSkips = 0 → (runRotate cfg rs cs).capSkips = 0 := by
  intro cs
  induction cs with
  | nil => intro rs _ _ h; exact h
  | cons c rest ih =>
    intro rs hdist h0 hcap
    have hc0 : lookupN rs.userAttempts (parse_user_ref c.1).key = 0 :=
      h0 c (List.mem_cons_self c rest)
    have hstep := procRotate_step_cap cfg rs c (by omega)
    rw [List.map_cons, List.nodup_cons] at hdist
    refine ih (procRotate cfg rs c) hdist.2 ?_ (by rw [hstep.1]; exact hcap)
    intro c' hc'
    have hne : (parse_user_ref c'.1).key ≠ (parse_user_ref c.1).key := by
      intro he
      exact hdist.1 (he ▸ List.mem_map_of_mem (fun x => (parse_user_ref x.1).key) hc')
    rw [hstep.2 _ hne]
    exact h0 c' (List.mem_cons_of_mem _ hc')

/-- C10: in `inviting_rotate_sessions`, if the candidates' normalized
keys are pairwise distinct and `max_user_attempts ≥ 1`, the per-user
attempt-cap branch (ledger `skip` with reason `max_attempts=...`) is
unreachable: each candidate is visited once, so no in-run attempt counter
can exceed the cap. -/
theorem max_attempts_cap_unreachable (cfg : RotCfg)
    (cs : List (UserRef × StepEnv)) (rs : RunState)
    (hmax : 1 ≤ cfg.maxUserAttempts)
    (hdist : (cs.map (fun c => (parse_user_ref c.1).key)).Nodup)
    (hua : rs.userAttempts = []) (hcap : rs.capSkips = 0) :
    (runRotate cfg rs cs).capSkips = 0 := by
  refine runRotate_capSkips_zero cfg hmax cs rs hdist ?_ hcap
  intro c _
  rw [hua]
  rfl

/-- Witness for C10: a concrete two-candidate run with distinct keys and
the default cap 3 — the cap branch never fires. -/
theorem max_attempts_cap_unreachable_witness :
    (runRotate { targetKey := "@grp" }
      { ledger := [], excludedCache := [],
        states := [{ session_file := "s1.session" }] }
      [(.str "alice1", { outcome := .success }),
       (.str "bobby2", { outcome := .floodWait 30 })]).capSkips = 0 :=
  max_attempts_cap_unreachable { targetKey := "@grp" }
    [(.str "alice1", { outcome := .success }),
     (.str "bobby2", { outcome := .floodWait 30 })]
    { ledger := [], excludedCache := [],
      states := [{ session_file := "s1.session" }] }
    (by decide) (by decide) rfl rfl

/- ------------------------------------------------------------------ -/
/- PeerFlood handling (C7)                                             -/
/- ------------------------------------------------------------------ -/

lemma ledgerGet_put_same (l : List LEntry) (t k : String) (uid : Option Int)
    (uname : Option String) (status reason : String) :
    ledgerGet (ledgerPut l t k uid uname status reason) t k =
      some (status, reason) := by
  show (if t = t ∧ k = k then some (status, reason)
    else ledgerGet _ t k) = some (status, reason)
  rw [if_pos ⟨rfl, rfl⟩]

lemma rotCapCheck_ledger (cfg : RotCfg) (env : StepEnv) (sf : String)
    (rs : RunState) : (rotCapCheck cfg env sf rs).ledger = rs.ledger := by
  unfold rotCapCheck
  split_ifs <;> rfl

lemma keyLe_first {a b : Int × Int × Int} (h : keyLe a b) : a.1 ≤ b.1 := by
  unfold keyLe keyLt at h; omega

/-- A minimality consequence of the scheduler: an actor is never picked
in preference to a non-banned actor with strictly earlier readiness. -/
lemma pick_not_prefer_later {l : List SessionState} {s x : SessionState}
    (hs : s ∈ l) (hsb : s.banned = false) (hlt : readiness s < readiness x) :
    pick_best_session l ≠ some x := by
  intro hp
  have hmin := (pick_best_session_spec_some hp).2.2 s hs hsb
  have := keyLe_first hmin
  simp only [sessKey] at this
  omega

lemma updateStates_exists (l : List SessionState) (sf : String)
    (f : SessionState → SessionState)
    (hf1 : ∀ s, (f s).session_file = s.session_file)
    (hf2 : ∀ s, (f s).frozen_until = s.frozen_until) :
    ∀ s ∈ l, ∃ s' ∈ updateStates l sf f,
      s'.session_file = s.session_file ∧ s'.frozen_until = s.frozen_until := by
  intro s hs
  refine ⟨if s.session_file = sf then f s else s,
    List.mem_map_of_mem _ hs, ?_, ?_⟩ <;> split_ifs <;> simp [hf1, hf2]

lemma rotCapCheck_states_frozen (cfg : RotCfg) (env : StepEnv) (sf : String)
    (rs : RunState) :
    ∀ s ∈ rs.states, ∃ s' ∈ (rotCapCheck cfg env sf rs).states,
      s'.session_file = s.session_file ∧ s'.frozen_until = s.frozen_until := by
  intro s hs
  unfold rotCapCheck
  split_ifs
  · exact ⟨s, hs, rfl, rfl⟩
  · exact updateStates_exists rs.states sf
      (fun s => { s with
        next_invite_at := max s.next_invite_at (env.dnow + env.capJitter) })
      (fun _ => rfl) (fun _ => rfl) s hs
  · exact ⟨s, hs, rfl, rfl⟩

lemma updateStates_mem_self {l : List SessionState} {s : SessionState}
    (hs : s ∈ l) {sf : String} (hsf : s.session_file = sf)
    (f : SessionState → SessionState) : f s ∈ updateStates l sf f := by
  have h : (if s.session_file = sf then f s else s) ∈ updateStates l sf f :=
    List.mem_map_of_mem _ hs
  rwa [if_pos hsf] at h

lemma rotOutcome_peerflood_states (cfg : RotCfg) (env : StepEnv)
    (rs : RunState) (sf uk : String) (uid : Option Int)
    (uname : Option String) (hoc : env.outcome = .peerFlood) :
    (rotOutcome cfg env rs sf uk uid uname).states =
      updateStates rs.states sf
        (peerfloodFreeze env.dnow cfg.peerfloodFreezeHours) := by
  obtain ⟨now, dnow, ck, oc, nd, rj, cj⟩ := env
  simp only at hoc
  subst hoc
  rfl

lemma rotOutcome_peerflood_ledger (cfg : RotCfg) (env : StepEnv)
    (rs : RunState) (sf uk : String) (uid : Option Int)
    (uname : Option String) (hoc : env.outcome = .peerFlood) :
    (rotOutcome cfg env rs sf uk uid uname).ledger =
      ledgerPut rs.ledger cfg.targetKey uk uid uname "peerflood" "PeerFlood" := by
  obtain ⟨now, dnow, ck, oc, nd, rj, cj⟩ := env
  simp only at hoc
  subst hoc
  rfl

lemma rotDispatch_clientOk (cfg : RotCfg) (env : StepEnv) (rs : RunState)
    (st : SessionState) (uk : String) (uid : Option Int)
    (uname : Option String) (hck : env.clientOk = true) :
    rotDispatch cfg env rs st uk uid uname =
      rotCapCheck cfg env st.session_file
        (rotOutcome cfg env
          { rs with
            states := updateStates rs.states st.session_file bumpAttempts,
            attemptsInSession := setN rs.attemptsInSession st.session_file
              (lookupN rs.attemptsInSession st.session_file + 1),
            dispatched := rs.dispatched + 1 }
          st.session_file uk uid uname) := by
  unfold rotDispatch
  rw [hck]
  simp only [Bool.true_eq_false, if_false]

/-- Effect of a `PeerFloodError` dispatch on one picked session: ledger
row `peerflood`, no halt, and the actor frozen for the configured
duration. -/
lemma rotDispatch_peerflood (cfg : RotCfg) (env : StepEnv) (rs : RunState)
    (st : SessionState) (uk : String) (uid : Option Int)
    (uname : Option String) (hck : env.clientOk = true)
    (hoc : env.outcome = .peerFlood) (hmem : st ∈ rs.states) :
    (rotDispatch cfg env rs st uk uid uname).halted = rs.halted ∧
    ledgerGet (rotDispatch cfg env rs st uk uid uname).ledger
      cfg.targetKey uk = some ("peerflood", "PeerFlood") ∧
    ∃ st' ∈ (rotDispatch cfg env rs st uk uid uname).states,
      st'.session_file = st.session_file ∧
      env.dnow + (cfg.peerfloodFreezeHours : Int) * 3600 ≤ st'.frozen_until := by
  rw [rotDispatch_clientOk cfg env rs st uk uid uname hck]
  refine ⟨?_, ?_, ?_⟩
  · rw [rotCapCheck_halted, rotOutcome_halted, hoc]
    rw [if_neg (by intro h; cases h)]
  · rw [rotCapCheck_ledger, rotOutcome_peerflood_ledger _ _ _ _ _ _ _ hoc]
    exact ledgerGet_put_same _ _ _ _ _ _ _
  · have h1 : bumpAttempts st ∈
        updateStates rs.states st.session_file bumpAttempts :=
      updateStates_mem_self hmem rfl _
    have h2 : peerfloodFreeze env.dnow cfg.peerfloodFreezeHours
          (bumpAttempts st) ∈
        updateStates (updateStates rs.states st.session_file bumpAttempts)
          st.session_file
          (peerfloodFreeze env.dnow cfg.peerfloodFreezeHours) :=
      updateStates_mem_self h1 rfl _
    have h3 : peerfloodFreeze env.dnow cfg.peerfloodFreezeHours
          (bumpAttempts st) ∈
        (rotOutcome cfg env
          { rs with
            states := updateStates rs.states st.session_file bumpAttempts,
            attemptsInSession := setN rs.attemptsInSession st.session_file
              (lookupN rs.attemptsInSession st.session_file + 1),
            dispatched := rs.dispatched + 1 }
          st.session_file uk uid uname).states := by
      rw [rotOutcome_peerflood_states _ _ _ _ _ _ _ hoc]
      exact h2
    obtain ⟨s', hs', he1, he2⟩ := rotCapCheck_states_frozen cfg env
      st.session_file _ _ h3
    refine ⟨s', hs', ?_, ?_⟩
    · rw [he1]
      rfl
    · rw [he2]
      exact le_max_right _ _


/-- C7: a `PeerFloodError` dispatch in `inviting_rotate_sessions` writes
ledger status `peerflood` for the (target, candidate) pair, freezes the
chosen actor until at least `now + peerflood_freeze_hours * 3600`, does
not halt the run, and the frozen actor is never picked in preference to
a non-banned actor with strictly earlier readiness. -/
theorem peerflood_freezes_and_continues (cfg : RotCfg) (env : StepEnv)
    (rs : RunState) (raw : UserRef) (st : SessionState)
    (h0 : rs.halted = false)
    (hex : (parse_user_ref raw).key ∉ rs.excludedCache)
    (hterm : isTerminalFor rs.ledger cfg.targetKey
      (parse_user_ref raw).key = false)
    (hcap : ¬(cfg.maxUserAttempts ≠ 0 ∧ cfg.maxUserAttempts <
      lookupN rs.userAttempts (parse_user_ref raw).key + 1))
    (hpick : pick_best_session (gatedStates cfg env rs.states) = some st)
    (hck : env.clientOk = true) (hoc : env.outcome = .peerFlood) :
    (procRotate cfg rs (raw, env)).halted = false ∧
    ledgerGet (procRotate cfg rs (raw, env)).ledger cfg.targetKey
      (parse_user_ref raw).key = some ("peerflood", "PeerFlood") ∧
    ∃ st' ∈ (procRotate cfg rs (raw, env)).states,
      st'.session_file = st.session_file ∧
      env.dnow + (cfg.peerfloodFreezeHours : Int) * 3600 ≤ st'.frozen_until ∧
      ∀ (l : List SessionState) (s : SessionState), s ∈ l →
        s.banned = false → readiness s < readiness st' →
        pick_best_session l ≠ some st' := by
  have hmem : st ∈ gatedStates cfg env rs.states :=
    (pick_best_session_spec_some hpick).2.1
  simp only [procRotate]
  rw [h0]
  simp only [Bool.false_eq_true, if_false]
  rw [if_neg hex, if_neg (by rw [hterm]; exact Bool.false_ne_true), if_neg hcap]
  simp only [hpick]
  have hd := rotDispatch_peerflood cfg env
    { rs with
      userAttempts := setN rs.userAttempts (parse_user_ref raw).key
        (lookupN rs.userAttempts (parse_user_ref raw).key + 1),
      states := gatedStates cfg env rs.states, halted := false }
    st (parse_user_ref raw).key (parse_user_ref raw).userId
    (parse_user_ref raw).username hck hoc hmem
  obtain ⟨st', hst', he1, he2⟩ := hd.2.2
  exact ⟨hd.1, hd.2.1, st', hst', he1, he2,
    fun l s hs hsb hlt => pick_not_prefer_later hs hsb hlt⟩

/-- Witness for C7: a concrete `PeerFloodError` iteration with the
default 24-hour freeze at handler time 1000 — the run continues, the
ledger row is `peerflood` and the session is frozen until ≥ 87400. -/
theorem peerflood_freezes_and_continues_witness :
    (procRotate { targetKey := "@grp" }
      { ledger := [], excludedCache := [],
        states := [{ session_file := "s1.session" }] }
      (.str "alice1", { dnow := 1000, outcome := .peerFlood })).halted =
        false ∧
    ledgerGet (procRotate { targetKey := "@grp" }
      { ledger := [], excludedCache := [],
        states := [{ session_file := "s1.session" }] }
      (.str "alice1", { dnow := 1000, outcome := .peerFlood })).ledger
      "@grp" "u:alice1" = some ("peerflood", "PeerFlood") ∧
    ∃ st' ∈ (procRotate { targetKey := "@grp" }
      { ledger := [], excludedCache := [],
        states := [{ session_file := "s1.session" }] }
      (.str "alice1", { dnow := 1000, outcome := .peerFlood })).states,
      st'.session_file = "s1.session" ∧ (87400 : Int) ≤ st'.frozen_until := by
  have h := peerflood_freezes_and_continues { targetKey := "@grp" }
    { dnow := 1000, outcome := .peerFlood }
    { ledger := [], excludedCache := [],
      states := [{ session_file := "s1.session" }] }
    (.str "alice1") { session_file := "s1.session" }
    rfl (by decide) (by decide) (by decide) (by decide) rfl rfl
  obtain ⟨st', hst', hsf, hfr, _⟩ := h.2.2
  refine ⟨h.1, h.2.1, st', hst', hsf, ?_⟩
  have hfr' : (1000 : Int) + ((24 : Nat) : Int) * 3600 ≤ st'.frozen_until := hfr
  omega

/- ------------------------------------------------------------------ -/
/- Idempotence of reruns (C1)                                          -/
/- ------------------------------------------------------------------ -/

lemma ledgerGet_filter (l : List LEntry) (t k t' k' : String)
    (h : ¬(t' = t ∧ k' = k)) :
    ledgerGet (l.filter
      (fun e => !(decide (e.target = t) && decide (e.key = k)))) t' k' =
      ledgerGet l t' k' := by
  induction l with
  | nil => rfl
  | cons e rest ih =>
    rw [List.filter_cons]
    by_cases hkeep : (!(decide (e.target = t) && decide (e.key = k))) = true
    · rw [if_pos hkeep]
      rw [ledgerGet, ledgerGet]
      by_cases hm : e.target = t' ∧ e.key = k'
      · rw [if_pos hm, if_pos hm]
      · rw [if_neg hm, if_neg hm, ih]
    · rw [if_neg hkeep]
      have he : e.target = t ∧ e.key = k := by
        by_contra hc
        exact hkeep (by
          simp only [Bool.not_eq_true', Bool.and_eq_false_iff,
            decide_eq_false_iff_not]
          exact Decidable.not_and_iff_or_not.mp hc)
      have hm : ¬(e.target = t' ∧ e.key = k') := by
        rintro ⟨h1, h2⟩
        exact h ⟨h1 ▸ he.1, h2 ▸ he.2⟩
      rw [ih, ledgerGet, if_neg hm]

lemma ledgerGet_put_other (l : List LEntry) (t k : String) (uid : Option Int)
    (uname : Option String) (status reason : String) (t' k' : String)
    (h : ¬(t' = t ∧ k' = k)) :
    ledgerGet (ledgerPut l t k uid uname status reason) t' k' =
      ledgerGet l t' k' := by
  show (if t = t' ∧ k = k' then _ else ledgerGet (l.filter _) t' k') = _
  rw [if_neg (fun he => h ⟨he.1.symm, he.2.symm⟩),
    ledgerGet_filter l t k t' k' h]

lemma isTerminalFor_congr {l l' : List LEntry} {t k : String}
    (h : ledgerGet l t k = ledgerGet l' t k) :
    isTerminalFor l t k = isTerminalFor l' t k := by
  unfold isTerminalFor
  rw [h]

lemma excludedAdd_mem {l : List String} {a : String} (k : String)
    (ha : a ∈ l) : a ∈ excludedAdd l k := by
  unfold excludedAdd
  split_ifs
  · exact ha
  · exact List.mem_cons_of_mem _ ha

lemma rotOutcome_excl_mono (cfg : RotCfg) (env : StepEnv) (rs : RunState)
    (sf uk : String) (uid : Option Int) (uname : Option String) {a : String}
    (ha : a ∈ rs.excludedCache) :
    a ∈ (rotOutcome cfg env rs sf uk uid uname).excludedCache := by
  obtain ⟨now, dnow, ck, oc, nd, rj, cj⟩ := env
  cases oc <;> simp only [rotOutcome] <;>
    first
      | exact ha
      | exact excludedAdd_mem _ ha
      | (split_ifs
         · exact excludedAdd_mem _ ha
         · exact ha)

lemma rotOutcome_ledger_other (cfg : RotCfg) (env : StepEnv) (rs : RunState)
    (sf uk : String) (uid : Option Int) (uname : Option String) (k : String)
    (hk : k ≠ uk) :
    ledgerGet (rotOutcome cfg env rs sf uk uid uname).ledger
      cfg.targetKey k = ledgerGet rs.ledger cfg.targetKey k := by
  obtain ⟨now, dnow, ck, oc, nd, rj, cj⟩ := env
  cases oc <;> simp only [rotOutcome] <;>
    first
      | rfl
      | exact ledgerGet_put_other _ _ _ _ _ _ _ _ _ (fun he => hk he.2)

lemma rotOutcome_dispatched (cfg : RotCfg) (env : StepEnv) (rs : RunState)
    (sf uk : String) (uid : Option Int) (uname : Option String) :
    (rotOutcome cfg env rs sf uk uid uname).dispatched = rs.dispatched := by
  obtain ⟨now, dnow, ck, oc, nd, rj, cj⟩ := env
  cases oc <;> rfl

lemma rotOutcome_skip_ge (cfg : RotCfg) (env : StepEnv) (rs : RunState)
    (sf uk : String) (uid : Option Int) (uname : Option String) :
    rs.skipCnt ≤ (rotOutcome cfg env rs sf uk uid uname).skipCnt := by
  obtain ⟨now, dnow, ck, oc, nd, rj, cj⟩ := env
  cases oc <;> simp only [rotOutcome] <;> omega

lemma rotCapCheck_excl (cfg : RotCfg) (env : StepEnv) (sf : String)
    (rs : RunState) :
    (rotCapCheck cfg env sf rs).excludedCache = rs.excludedCache := by
  unfold rotCapCheck
  split_ifs <;> rfl

lemma rotCapCheck_skipCnt (cfg : RotCfg) (env : StepEnv) (sf : String)
    (rs : RunState) : (rotCapCheck cfg env sf rs).skipCnt = rs.skipCnt := by
  unfold rotCapCheck
  split_ifs <;> rfl

lemma rotCapCheck_dispatched (cfg : RotCfg) (env : StepEnv) (sf : String)
    (rs : RunState) :
    (rotCapCheck cfg env sf rs).dispatched = rs.dispatched := by
  unfold rotCapCheck
  split_ifs <;> rfl

lemma rotDispatch_dispatched_le (cfg : RotCfg) (env : StepEnv)
    (rs : RunState) (st : SessionState) (uk : String) (uid : Option Int)
    (uname : Option String) :
    (rotDispatch cfg env rs st uk uid uname).dispatched ≤
      rs.dispatched + 1 ∧
    rs.skipCnt ≤ (rotDispatch cfg env rs st uk uid uname).skipCnt := by
  unfold rotDispatch
  split_ifs
  · exact ⟨Nat.le_succ _, le_refl _⟩
  · rw [rotCapCheck_dispatched, rotOutcome_dispatched, rotCapCheck_skipCnt]
    refine ⟨le_refl _, ?_⟩
    exact rotOutcome_skip_ge cfg env
      { rs with
        states := updateStates rs.states st.session_file bumpAttempts,
        attemptsInSession := setN rs.attemptsInSession st.session_file
          (lookupN rs.attemptsInSession st.session_file + 1),
        dispatched := rs.dispatched + 1 }
      st.session_file uk uid uname

lemma rotDispatch_safe_preserved (cfg : RotCfg) (env : StepEnv)
    (rs : RunState) (st : SessionState) (uk : String) (uid : Option Int)
    (uname : Option String) (k : String) (hk : k ≠ uk)
    (hsafe : safeKey rs.ledger rs.excludedCache cfg.targetKey k) :
    safeKey (rotDispatch cfg env rs st uk uid uname).ledger
      (rotDispatch cfg env rs st uk uid uname).excludedCache
      cfg.targetKey k := by
  unfold rotDispatch
  split_ifs
  · exact hsafe
  · rcases hsafe with hx | ht
    · left
      rw [rotCapCheck_excl]
      exact rotOutcome_excl_mono _ _ _ _ _ _ _ hx
    · right
      have hl : ledgerGet (rotCapCheck cfg env st.session_file
          (rotOutcome cfg env
            { rs with
              states := updateStates rs.states st.session_file bumpAttempts,
              attemptsInSession := setN rs.attemptsInSession st.session_file
                (lookupN rs.attemptsInSession st.session_file + 1),
              dispatched := rs.dispatched + 1 }
            st.session_file uk uid uname)).ledger cfg.targetKey k =
          ledgerGet rs.ledger cfg.targetKey k := by
        rw [rotCapCheck_ledger]
        exact rotOutcome_ledger_other _ _ _ _ _ _ _ _ hk
      rw [isTerminalFor_congr hl]
      exact ht

lemma procRotate_halted_sticky (cfg : RotCfg) (rs : RunState)
    (c : UserRef × StepEnv) (h : rs.halted = true) :
    procRotate cfg rs c = rs := by
  obtain ⟨raw, env⟩ := c
  simp [procRotate, h]

/-- A candidate whose key is excluded or has a terminal ledger status is
skipped without dispatch and with exactly one skip increment. -/
lemma procRotate_safe_step (cfg : RotCfg) (rs : RunState)
    (c : UserRef × StepEnv) (h0 : rs.halted = false)
    (hsafe : safeKey rs.ledger rs.excludedCache cfg.targetKey
      (parse_user_ref c.1).key) :
    (procRotate cfg rs c).dispatched = rs.dispatched ∧
    (procRotate cfg rs c).skipCnt = rs.skipCnt + 1 := by
  obtain ⟨raw, env⟩ := c
  simp only [procRotate]
  rw [h0]
  simp only [Bool.false_eq_true, if_false]
  by_cases h1 : (parse_user_ref raw).key ∈ rs.excludedCache
  · rw [if_pos h1]
    exact ⟨rfl, rfl⟩
  · rcases hsafe with hx | ht
    · exact absurd hx h1
    · rw [if_neg h1, if_pos ht]
      exact ⟨rfl, rfl⟩

lemma procRotate_counts (cfg : RotCfg) (rs : RunState)
    (c : UserRef × StepEnv) :
    (procRotate cfg rs c).dispatched ≤ rs.dispatched + 1 ∧
    rs.skipCnt ≤ (procRotate cfg rs c).skipCnt := by
  obtain ⟨raw, env⟩ := c
  by_cases h0 : rs.halted = true
  · rw [procRotate_halted_sticky cfg rs (raw, env) h0]
    exact ⟨Nat.le_succ _, le_refl _⟩
  · simp only [procRotate]
    rw [eq_false_of_ne_true h0]
    simp only [Bool.false_eq_true, if_false]
    split_ifs with h1 h2 h3
    · exact ⟨Nat.le_succ _, Nat.le_succ _⟩
    · exact ⟨Nat.le_succ _, Nat.le_succ _⟩
    · exact ⟨Nat.le_succ _, Nat.le_succ _⟩
    · cases hp : pick_best_session (gatedStates cfg env rs.states) with
      | none => exact ⟨Nat.le_succ _, le_refl _⟩
      | some st =>
        simp only [hp]
        exact rotDispatch_dispatched_le cfg env _ st _ _ _

lemma procRotate_safe_preserved (cfg : RotCfg) (rs : RunState)
    (c : UserRef × StepEnv) (k : String)
    (hsafe : safeKey rs.ledger rs.excludedCache cfg.targetKey k) :
    safeKey (procRotate cfg rs c).ledger (procRotate cfg rs c).excludedCache
      cfg.targetKey k := by
  obtain ⟨raw, env⟩ := c
  by_cases h0 : rs.halted = true
  · rw [procRotate_halted_sticky cfg rs (raw, env) h0]
    exact hsafe
  · simp only [procRotate]
    rw [eq_false_of_ne_true h0]
    simp only [Bool.false_eq_true, if_false]
    by_cases hk : k = (parse_user_ref raw).key
    · by_cases h1 : (parse_user_ref raw).key ∈ rs.excludedCache
      · rw [if_pos h1]
        exact Or.inl (by rw [hk]; exact h1)
      · have ht : isTerminalFor rs.ledger cfg.targetKey
            (parse_user_ref raw).key = true := by
          rcases hsafe with hx | ht
          · exact absurd (hk ▸ hx) h1
          · rw [← hk]
            exact ht
        rw [if_neg h1, if_pos ht]
        exact Or.inr (by rw [hk]; exact ht)
    · split_ifs with h1 h2 h3
      · rcases hsafe with hx | ht
        · exact Or.inl hx
        · right
          rw [isTerminalFor_congr
            (ledgerGet_put_other _ _ _ _ _ _ _ _ _ (fun he => hk he.2))]
          exact ht
      · exact hsafe
      · rcases hsafe with hx | ht
        · exact Or.inl hx
        · right
          rw [isTerminalFor_congr
            (ledgerGet_put_other _ _ _ _ _ _ _ _ _ (fun he => hk he.2))]
          exact ht
      · cases hp : pick_best_session (gatedStates cfg env rs.states) with
        | none => exact hsafe
        | some st =>
          simp only [hp]
          exact rotDispatch_safe_preserved cfg env _ st _ _ _ k hk hsafe

lemma singleOutcome_dispatched (env : StepEnv) (target : String)
    (rs : RunState1) (uk : String) (uid : Option Int)
    (uname : Option String) :
    (singleOutcome env target rs uk uid uname).dispatched = rs.dispatched := by
  obtain ⟨now, dnow, ck, oc, nd, rj, cj⟩ := env
  cases oc <;> rfl

lemma singleOutcome_skip_ge (env : StepEnv) (target : String)
    (rs : RunState1) (uk : String) (uid : Option Int)
    (uname : Option String) :
    rs.skipCnt ≤ (singleOutcome env target rs uk uid uname).skipCnt := by
  obtain ⟨now, dnow, ck, oc, nd, rj, cj⟩ := env
  cases oc <;> simp only [singleOutcome] <;> omega

lemma singleOutcome_excl_mono (env : StepEnv) (target : String)
    (rs : RunState1) (uk : String) (uid : Option Int)
    (uname : Option String) {a : String} (ha : a ∈ rs.excludedCache) :
    a ∈ (singleOutcome env target rs uk uid uname).excludedCache := by
  obtain ⟨now, dnow, ck, oc, nd, rj, cj⟩ := env
  cases oc <;> simp only [singleOutcome] <;>
    first
      | exact ha
      | exact excludedAdd_mem _ ha
      | (split_ifs
         · exact excludedAdd_mem _ ha
         · exact ha)

lemma singleOutcome_ledger_other (env : StepEnv) (target : String)
    (rs : RunState1) (uk : String) (uid : Option Int)
    (uname : Option String) (k : String) (hk : k ≠ uk) :
    ledgerGet (singleOutcome env target rs uk uid uname).ledger target k =
      ledgerGet rs.ledger target k := by
  obtain ⟨now, dnow, ck, oc, nd, rj, cj⟩ := env
  cases oc <;> simp only [singleOutcome] <;>
    first
      | rfl
      | exact ledgerGet_put_other _ _ _ _ _ _ _ _ _ (fun he => hk he.2)

lemma procSingle_halted_sticky (target : String) (rs : RunState1)
    (c : UserRef × StepEnv) (h : rs.halted = true) :
    procSingle target rs c = rs := by
  obtain ⟨raw, env⟩ := c
  simp [procSingle, h]

lemma procSingle_safe_step (target : String) (rs : RunState1)
    (c : UserRef × StepEnv) (h0 : rs.halted = false)
    (hsafe : safeKey rs.ledger rs.excludedCache target
      (parse_user_ref c.1).key) :
    (procSingle target rs c).dispatched = rs.dispatched ∧
    (procSingle target rs c).skipCnt = rs.skipCnt + 1 := by
  obtain ⟨raw, env⟩ := c
  simp only [procSingle]
  rw [h0]
  simp only [Bool.false_eq_true, if_false]
  by_cases h1 : (parse_user_ref raw).key ∈ rs.excludedCache
  · rw [if_pos h1]
    exact ⟨rfl, rfl⟩
  · rcases hsafe with hx | ht
    · exact absurd hx h1
    · rw [if_neg h1, if_pos ht]
      exact ⟨rfl, rfl⟩

lemma procSingle_counts (target : String) (rs : RunState1)
    (c : UserRef × StepEnv) :
    (procSingle target rs c).dispatched ≤ rs.dispatched + 1 ∧
    rs.skipCnt ≤ (procSingle target rs c).skipCnt := by
  obtain ⟨raw, env⟩ := c
  by_cases h0 : rs.halted = true
  · rw [procSingle_halted_sticky target rs (raw, env) h0]
    exact ⟨Nat.le_succ _, le_refl _⟩
  · simp only [procSingle]
    rw [eq_false_of_ne_true h0]
    simp only [Bool.false_eq_true, if_false]
    split_ifs with h1 h2
    · exact ⟨Nat.le_succ _, Nat.le_succ _⟩
    · exact ⟨Nat.le_succ _, Nat.le_succ _⟩
    · rw [singleOutcome_dispatched]
      refine ⟨le_refl _, ?_⟩
      exact singleOutcome_skip_ge env target
        { rs with dispatched := rs.dispatched + 1, halted := false } _ _ _

lemma procSingle_safe_preserved (target : String) (rs : RunState1)
    (c : UserRef × StepEnv) (k : String)
    (hsafe : safeKey rs.ledger rs.excludedCache target k) :
    safeKey (procSingle target rs c).ledger
      (procSingle target rs c).excludedCache target k := by
  obtain ⟨raw, env⟩ := c
  by_cases h0 : rs.halted = true
  · rw [procSingle_halted_sticky target rs (raw, env) h0]
    exact hsafe
  · simp only [procSingle]
    rw [eq_false_of_ne_true h0]
    simp only [Bool.false_eq_true, if_false]
    by_cases hk : k = (parse_user_ref raw).key
    · by_cases h1 : (parse_user_ref raw).key ∈ rs.excludedCache
      · rw [if_pos h1]
        exact hsafe
      · have ht : isTerminalFor rs.ledger target
            (parse_user_ref raw).key = true := by
          rcases hsafe with hx | ht
          · exact absurd (hk ▸ hx) h1
          · rw [← hk]
            exact ht
        rw [if_neg h1, if_pos ht]
        exact hsafe
    · split_ifs with h1 h2
      · exact hsafe
      · exact hsafe
      · rcases hsafe with hx | ht
        · exact Or.inl (singleOutcome_excl_mono _ _ _ _ _ _ hx)
        · right
          rw [isTerminalFor_congr
            (singleOutcome_ledger_other _ _ _ _ _ _ _ hk)]
          exact ht

lemma initTerminalCount_cons (L : List LEntry) (t : String) (r : UserRef)
    (us : List UserRef) :
    initTerminalCount L t (r :: us) =
      (if isTerminalFor L t (userKeyOf r) = true then 1 else 0) +
        initTerminalCount L t us := by
  unfold initTerminalCount
  rw [List.filter_cons]
  split_ifs with h
  · rw [List.length_cons]
    omega
  · omega

lemma initTerminalCount_le_length (L : List LEntry) (t : String)
    (us : List UserRef) : initTerminalCount L t us ≤ us.length :=
  List.length_filter_le _ _

lemma runRotate_halted_sticky (cfg : RotCfg) :
    ∀ (cs : List (UserRef × StepEnv)) (rs : RunState),
      rs.halted = true → runRotate cfg rs cs = rs := by
  intro cs
  induction cs with
  | nil => intro rs _; rfl
  | cons c rest ih =>
    intro rs h
    show runRotate cfg (procRotate cfg rs c) rest = rs
    rw [procRotate_halted_sticky cfg rs c h]
    exact ih rs h

lemma runSingle_halted_sticky (target : String) :
    ∀ (cs : List (UserRef × StepEnv)) (rs : RunState1),
      rs.halted = true → runSingle target rs cs = rs := by
  intro cs
  induction cs with
  | nil => intro rs _; rfl
  | cons c rest ih =>
    intro rs h
    show runSingle target (procSingle target rs c) rest = rs
    rw [procSingle_halted_sticky target rs c h]
    exact ih rs h

lemma runRotate_idem_aux (cfg : RotCfg) (L0 : List LEntry) :
    ∀ (cs : List (UserRef × StepEnv)) (rs : RunState),
      (∀ k, isTerminalFor L0 cfg.targetKey k = true →
        safeKey rs.ledger rs.excludedCache cfg.targetKey k) →
      (runRotate cfg rs cs).dispatched ≤ rs.dispatched +
        (cs.length - initTerminalCount L0 cfg.targetKey (cs.map Prod.fst)) ∧
      ((runRotate cfg rs cs).halted = false →
        rs.skipCnt + initTerminalCount L0 cfg.targetKey (cs.map Prod.fst) ≤
          (runRotate cfg rs cs).skipCnt) := by
  intro cs
  induction cs with
  | nil =>
    intro rs _
    exact ⟨Nat.le_refl _, fun _ => Nat.le_refl _⟩
  | cons c rest ih =>
    intro rs hinv
    have hrun : runRotate cfg rs (c :: rest) =
        runRotate cfg (procRotate cfg rs c) rest := rfl
    have hKcons := initTerminalCount_cons L0 cfg.targetKey c.1
      (rest.map Prod.fst)
    have hKle := initTerminalCount_le_length L0 cfg.targetKey
      (rest.map Prod.fst)
    have hlen : (rest.map Prod.fst).length = rest.length :=
      List.length_map _ _
    have hmap : (c :: rest).map Prod.fst = c.1 :: rest.map Prod.fst :=
      List.map_cons _ _ _
    rw [hrun, hmap, hKcons]
    simp only [List.length_cons]
    by_cases h0 : rs.halted = true
    · rw [procRotate_halted_sticky cfg rs c h0,
        runRotate_halted_sticky cfg rest rs h0]
      refine ⟨by omega, fun hf => ?_⟩
      rw [hf] at h0
      cases h0
    · have hinv' : ∀ k, isTerminalFor L0 cfg.targetKey k = true →
          safeKey (procRotate cfg rs c).ledger
            (procRotate cfg rs c).excludedCache cfg.targetKey k :=
        fun k hk => procRotate_safe_preserved cfg rs c k (hinv k hk)
      obtain ⟨ihA, ihB⟩ := ih (procRotate cfg rs c) hinv'
      by_cases hc : isTerminalFor L0 cfg.targetKey (userKeyOf c.1) = true
      · have hstep := procRotate_safe_step cfg rs c
          (eq_false_of_ne_true h0) (hinv _ hc)
        rw [if_pos hc]
        refine ⟨by omega, fun hf => ?_⟩
        have hB := ihB hf
        omega
      · have hstep := procRotate_counts cfg rs c
        rw [if_neg hc]
        refine ⟨by omega, fun hf => ?_⟩
        have hB := ihB hf
        omega

lemma runSingle_idem_aux (target : String) (L0 : List LEntry) :
    ∀ (cs : List (UserRef × StepEnv)) (rs : RunState1),
      (∀ k, isTerminalFor L0 target k = true →
        safeKey rs.ledger rs.excludedCache target k) →
      (runSingle target rs cs).dispatched ≤ rs.dispatched +
        (cs.length - initTerminalCount L0 target (cs.map Prod.fst)) ∧
      ((runSingle target rs cs).halted = false →
        rs.skipCnt + initTerminalCount L0 target (cs.map Prod.fst) ≤
          (runSingle target rs cs).skipCnt) := by
  intro cs
  induction cs with
  | nil =>
    intro rs _
    exact ⟨Nat.le_refl _, fun _ => Nat.le_refl _⟩
  | cons c rest ih =>
    intro rs hinv
    have hrun : runSingle target rs (c :: rest) =
        runSingle target (procSingle target rs c) rest := rfl
    have hKcons := initTerminalCount_cons L0 target c.1 (rest.map Prod.fst)
    have hKle := initTerminalCount_le_length L0 target (rest.map Prod.fst)
    have hlen : (rest.map Prod.fst).length = rest.length :=
      List.length_map _ _
    have hmap : (c :: rest).map Prod.fst = c.1 :: rest.map Prod.fst :=
      List.map_cons _ _ _
    rw [hrun, hmap, hKcons]
    simp only [List.length_cons]
    by_cases h0 : rs.halted = true
    · rw [procSingle_halted_sticky target rs c h0,
        runSingle_halted_sticky target rest rs h0]
      refine ⟨by omega, fun hf => ?_⟩
      rw [hf] at h0
      cases h0
    · have hinv' : ∀ k, isTerminalFor L0 target k = true →
          safeKey (procSingle target rs c).ledger
            (procSingle target rs c).excludedCache target k :=
        fun k hk => procSingle_safe_preserved target rs c k (hinv k hk)
      obtain ⟨ihA, ihB⟩ := ih (procSingle target rs c) hinv'
      by_cases hc : isTerminalFor L0 target (userKeyOf c.1) = true
      · have hstep := procSingle_safe_step target rs c
          (eq_false_of_ne_true h0) (hinv _ hc)
        rw [if_pos hc]
        refine ⟨by omega, fun hf => ?_⟩
        have hB := ihB hf
        omega
      · have hstep := procSingle_counts target rs c
        rw [if_neg hc]
        refine ⟨by omega, fun hf => ?_⟩
        have hB := ihB hf
        omega

/-- Counterexample to the unconditional form of C1: rerunning two
candidates of which the second has terminal status `ok`, where the first
dispatch hits the fatal `ChatAdminRequiredError`, halts before the
terminal candidate is reached — the run reports `skip_cnt = 0 < K = 1`
(while still dispatching at most N − K = 1 times). -/
theorem rerun_skip_count_can_miss_terminal :
    initTerminalCount [⟨"@grp", "u:bobby2", none, none, "ok", "x"⟩] "@grp"
      [.str "alice1", .str "bobby2"] = 1 ∧
    (runSingle "@grp"
      { ledger := [⟨"@grp", "u:bobby2", none, none, "ok", "x"⟩],
        excludedCache := [] }
      [(.str "alice1", { outcome := .adminRequired }),
       (.str "bobby2", { outcome := .success })]).skipCnt = 0 ∧
    (runSingle "@grp"
      { ledger := [⟨"@grp", "u:bobby2", none, none, "ok", "x"⟩],
        excludedCache := [] }
      [(.str "alice1", { outcome := .adminRequired }),
       (.str "bobby2", { outcome := .success })]).dispatched = 1 := by
  refine ⟨by decide, by decide, by decide⟩

/-- C1 amended: in both loops, a candidate reached (run not yet halted)
whose ledger status for the target is terminal (`ok`, `already`,
`privacy`, `invalid`) is never dispatched and increments the skip count
by exactly one.  Hence a rerun with the same N candidates, K of which
hold terminal statuses at run start, dispatches at most N − K times —
unconditionally — and reports `skip_cnt ≥ K` **provided the run is not
halted early** (by the fatal no-permission condition, by `PeerFloodError`
in single-session `inviting`, or by running out of sessions); a halted
rerun can report `skip_cnt < K`. -/
theorem ledger_terminal_idempotence :
    (∀ (cfg : RotCfg) (rs : RunState) (raw : UserRef) (env : StepEnv),
      rs.halted = false →
      isTerminalFor rs.ledger cfg.targetKey (parse_user_ref raw).key = true →
      (procRotate cfg rs (raw, env)).dispatched = rs.dispatched ∧
      (procRotate cfg rs (raw, env)).skipCnt = rs.skipCnt + 1) ∧
    (∀ (target : String) (rs : RunState1) (raw : UserRef) (env : StepEnv),
      rs.halted = false →
      isTerminalFor rs.ledger target (parse_user_ref raw).key = true →
      (procSingle target rs (raw, env)).dispatched = rs.dispatched ∧
      (procSingle target rs (raw, env)).skipCnt = rs.skipCnt + 1) ∧
    (∀ (cfg : RotCfg) (cs : List (UserRef × StepEnv)) (rs : RunState),
      (runRotate cfg rs cs).dispatched ≤ rs.dispatched + (cs.length -
        initTerminalCount rs.ledger cfg.targetKey (cs.map Prod.fst)) ∧
      ((runRotate cfg rs cs).halted = false →
        rs.skipCnt +
          initTerminalCount rs.ledger cfg.targetKey (cs.map Prod.fst) ≤
          (runRotate cfg rs cs).skipCnt)) ∧
    (∀ (target : String) (cs : List (UserRef × StepEnv)) (rs : RunState1),
      (runSingle target rs cs).dispatched ≤ rs.dispatched + (cs.length -
        initTerminalCount rs.ledger target (cs.map Prod.fst)) ∧
      ((runSingle target rs cs).halted = false →
        rs.skipCnt + initTerminalCount rs.ledger target (cs.map Prod.fst) ≤
          (runSingle target rs cs).skipCnt)) := by
  refine ⟨?_, ?_, ?_, ?_⟩
  · intro cfg rs raw env h0 ht
    exact procRotate_safe_step cfg rs (raw, env) h0 (Or.inr ht)
  · intro target rs raw env h0 ht
    exact procSingle_safe_step target rs (raw, env) h0 (Or.inr ht)
  · intro cfg cs rs
    exact runRotate_idem_aux cfg rs.ledger cs rs (fun k hk => Or.inr hk)
  · intro target cs rs
    exact runSingle_idem_aux target rs.ledger cs rs (fun k hk => Or.inr hk)

/-- Witness for C1 (amended): a rerun over two candidates with one
pre-existing `ok` row skips it without dispatch and, completing
unhalted, reports `skip_cnt ≥ K = 1`. -/
theorem ledger_terminal_idempotence_witness :
    (procSingle "@grp"
      { ledger := [⟨"@grp", "u:bobby2", none, none, "ok", "x"⟩],
        excludedCache := [] }
      (.str "bobby2", {})).dispatched = 0 ∧
    (procSingle "@grp"
      { ledger := [⟨"@grp", "u:bobby2", none, none, "ok", "x"⟩],
        excludedCache := [] }
      (.str "bobby2", {})).skipCnt = 1 ∧
    (runSingle "@grp"
      { ledger := [⟨"@grp", "u:bobby2", none, none, "ok", "x"⟩],
        excludedCache := [] }
      [(.str "bobby2", {}), (.str "alice1", {})]).halted = false ∧
    initTerminalCount [⟨"@grp", "u:bobby2", none, none, "ok", "x"⟩] "@grp"
        [.str "bobby2", .str "alice1"] ≤
      (runSingle "@grp"
        { ledger := [⟨"@grp", "u:bobby2", none, none, "ok", "x"⟩],
          excludedCache := [] }
        [(.str "bobby2", {}), (.str "alice1", {})]).skipCnt := by
  have h1 := ledger_terminal_idempotence.2.1 "@grp"
    { ledger := [⟨"@grp", "u:bobby2", none, none, "ok", "x"⟩],
      excludedCache := [] }
    (.str "bobby2") {} rfl (by decide)
  have h3 := (ledger_terminal_idempotence.2.2.2 "@grp"
    [(.str "bobby2", {}), (.str "alice1", {})]
    { ledger := [⟨"@grp", "u:bobby2", none, none, "ok", "x"⟩],
      excludedCache := [] }).2 (by decide)
  have h3' : 0 + initTerminalCount
      [⟨"@grp", "u:bobby2", none, none, "ok", "x"⟩] "@grp"
      [.str "bobby2", .str "alice1"] ≤
      (runSingle "@grp"
        { ledger := [⟨"@grp", "u:bobby2", none, none, "ok", "x"⟩],
          excludedCache := [] }
        [(.str "bobby2", {}), (.str "alice1", {})]).skipCnt := h3
  exact ⟨h1.1, h1.2, by decide, by omega⟩

end TgInvite
